import Mathlib

/-!
# Verification of the web-novel ebook-builder extraction pipeline

Shallow embedding of the repository's extraction pipeline:
* `src/traverser.rs` — the generic selector-driven tree traverser,
* `src/novel/kakuyomu.rs` and `src/novel/syosetu.rs` — the two source adapters
  (table-of-contents hooks and post-traversal validation/assembly),
* `src/novel/kakuyomu/content.rs`, `src/novel/syosetu/content.rs`,
  `src/novel/novel_utils.rs` — the chapter-content and ruby-annotation extractors,
* `src/novel/syosetu/info_page.rs` — the status info page,
* `src/novel.rs` — the document model and the digit-to-kanji renderer.

Modelling conventions:
* A parsed DOM is a pure tree (`Node`).  A kuchiki `NodeDataRef` (which carries
  tree identity and ancestry through parent pointers) is modelled as the pair of
  the traversal root and the node's child-index path from that root.
* Rust `panic!`/`unwrap` is modelled as `Except.error`/`Option.none`: a panic
  aborts the computation and yields no value.
* `u32` arithmetic is modelled on `Nat` with an explicit `% 2^32` at the single
  place the source increments a `u32` counter.
* Network fetches and CSS-selector compilation are oracles supplied by a
  `World`; a fetch always yields a parsed tree (transport failures are
  orthogonal to every claim considered here).
-/

namespace WNB

/-- The width modulus of Rust's `u32` (the type of `chapter_count`/`order_num`). -/
def U32 : Nat := 2 ^ 32

/-! ## DOM model -/

/-- A parsed HTML node: an element with a tag name, attribute list and child
list, a text node, or any other node kind (comment, doctype, …), which the
pipeline never inspects beyond skipping it. -/
inductive Node where
  | element (name : String) (attrs : List (String × String)) (children : List Node)
  | text (s : String)
  | other

namespace Node

/-- Child list of a node (non-elements have none). -/
def children : Node → List Node
  | .element _ _ ch => ch
  | _ => []

/-- Is this node an element?  (kuchiki's `Elements` iterator filter.) -/
def isElement : Node → Bool
  | .element _ _ _ => true
  | _ => false

/-- Local tag name of an element (`""` for non-elements). -/
def tagName : Node → String
  | .element n _ _ => n
  | _ => ""

/-- First attribute with the given name (kuchiki `attributes.get`). -/
def attr : Node → String → Option String
  | .element _ attrs _, key => (attrs.find? (fun a => a.1 == key)).map (fun a => a.2)
  | _, _ => none

/-- The `id` attribute. -/
def idAttr (n : Node) : Option String := n.attr "id"

/-- Split a character list on spaces (the whitespace-splitting a selector
engine applies to the `class` attribute). -/
def splitClassesAux : List Char → List Char → List (List Char)
  | [], cur => [cur.reverse]
  | ch :: rest, cur =>
      if ch = ' ' then cur.reverse :: splitClassesAux rest []
      else splitClassesAux rest (ch :: cur)

/-- The space-separated fields of a `class` attribute value. -/
def splitClasses (cs : List Char) : List (List Char) := splitClassesAux cs []

/-- Does the element's `class` attribute contain the given class (CSS `.c`)?
The attribute value is split on spaces, as selector engines do. -/
def hasClass (n : Node) (c : String) : Bool :=
  match n.attr "class" with
  | some v => (splitClasses v.data).contains c.data
  | none => false

end Node

mutual
/-- kuchiki `text_contents`: concatenation of all text in the subtree. -/
def Node.textContents : Node → String
  | .text s => s
  | .other => ""
  | .element _ _ ch => textContentsList ch

/-- `Node.textContents` over a child list. -/
def textContentsList : List Node → String
  | [] => ""
  | c :: rest => Node.textContents c ++ textContentsList rest
end

mutual
/-- All strict descendants of a node paired with their child-index path from
that node, in document (pre)order.  This is the iteration order of kuchiki's
`descendants()` used by `TreeTraverser::traverse`; the path is the pure-tree
stand-in for node identity. -/
def Node.descWithPaths : Node → List (List Nat × Node)
  | .element _ _ ch => descWithPathsList 0 ch
  | _ => []

/-- Descendants of a forest starting at child index `i`. -/
def descWithPathsList : Nat → List Node → List (List Nat × Node)
  | _, [] => []
  | i, c :: rest =>
      ([i], c) :: (c.descWithPaths).map (fun q => (i :: q.1, q.2))
        ++ descWithPathsList (i + 1) rest
end

/-- Resolve a child-index path from a node. -/
def atPathAux : List Nat → Node → Option Node
  | [], n => some n
  | i :: p, n =>
      match n.children.get? i with
      | some c => atPathAux p c
      | none => none

/-- Resolve a child-index path from a node (path-last form). -/
def Node.atPath (n : Node) (p : List Nat) : Option Node := atPathAux p n

/-- Document-order list of strict-descendant paths. -/
def Node.descPaths (n : Node) : List (List Nat) := n.descWithPaths.map Prod.fst

/-! ## The tree traverser (`src/traverser.rs`) -/

/-- `TraverseError::CssSelectorCompilation`. -/
inductive TraverseError where
  | cssSelectorCompilation (selector : String)
deriving Repr, DecidableEq

/-- A registered hook: a compiled selector, an optional compiled negative
selector, and a callback.  Compiled selectors are modelled as predicates over
(traversal root, element path): kuchiki's `Selectors::matches` may inspect the
element's ancestry and sibling position, all of which the root plus the path
determine. -/
structure Hook (T : Type) where
  sel : Node → List Nat → Bool
  neg : Option (Node → List Nat → Bool)
  callback : T → Node → T

/-- `Hook::match_element`: if a negative selector is present and matches,
return unchanged; otherwise invoke the callback iff the selector matches. -/
def Hook.matchElement (root : Node) (h : Hook T) (data : T) (p : List Nat) (el : Node) : T :=
  match h.neg with
  | some ns =>
      if ns root p then data
      else if h.sel root p then h.callback data el else data
  | none => if h.sel root p then h.callback data el else data

/-- One traversal step: evaluate every hook, in registration order, against a
single element (non-elements are skipped by the `Elements` iterator). -/
def traverseStep (root : Node) (hooks : List (Hook T)) (data : T)
    (pe : List Nat × Node) : T :=
  if pe.2.isElement then
    hooks.foldl (fun d h => h.matchElement root d pe.1 pe.2) data
  else data

/-- `TreeTraverser::traverse`: walk every descendant of the root in document
order, evaluating every hook against each element. -/
def traverse (root : Node) (hooks : List (Hook T)) (init : T) : T :=
  (root.descWithPaths).foldl (traverseStep root hooks) init

/-! ## Document model (`src/novel.rs`) -/

/-- `Content`: a plain text span or a ruby (base text + gloss) pair. -/
inductive Content where
  | span (s : String)
  | ruby (main : String) (above : String)
deriving Repr, DecidableEq

/-- `ContentLine`: a text line made of spans, or a blank line. -/
inductive ContentLine where
  | line (contents : List Content)
  | blank
deriving Repr, DecidableEq

/-- `NovelStatus`. -/
inductive NovelStatus where
  | running
  | finished
deriving Repr, DecidableEq

/-- `NovelComponent` (the field named by a `ComponentMissing` error). -/
inductive NovelComponent where
  | title
  | author
  | status
  | chapter
  | chapterContent
  | chapterUnderSection
  | infoPath
deriving Repr, DecidableEq

/-- `NovelError`, restricted to the variants the modelled code can produce.
`panicked` models a Rust `panic!`/`unwrap` abort (which yields no value and
unwinds out of the whole computation). -/
inductive NovelError where
  | componentMissing (c : NovelComponent)
  | traverseError (e : TraverseError)
  | panicked
deriving Repr, DecidableEq

/-- `Chapter` from `src/novel.rs` (`order_num` is a `u32`, modelled as `Nat`). -/
structure Chapter where
  name : String
  date : String
  order_num : Nat
  content : List ContentLine
deriving Repr, DecidableEq

/-- `Section` from `src/novel.rs`. -/
structure Section where
  name : String
  chapters : List Chapter
deriving Repr, DecidableEq

/-- `NovelContents`: either sections or a flat chapter list. -/
inductive NovelContents where
  | sections (s : List Section)
  | chapters (c : List Chapter)
deriving Repr, DecidableEq

/-- `Novel`. -/
structure Novel where
  title : String
  author : String
  status : NovelStatus
  source_url : String
  contents : NovelContents
deriving Repr, DecidableEq

/-! ## Ruby annotation walk
(`novel_utils::get_ruby` and the identical inline loop in
`kakuyomu/content.rs::get_content_line`) -/

/-- The ruby child loop shared verbatim by `novel_utils::get_ruby` and
`ContentData::get_content_line` in `kakuyomu/content.rs`.  State: the
optional collected base (`main`) and gloss (`above`), and the spans emitted
so far.  A text child sets `main` and `continue`s (skipping the pair check);
an `rb` child sets `main`, an `rt` child sets `above`; after every non-text
child, a complete pair is emitted and reset.  After the loop, if `main` or
`above` is still set the code panics (`Bad ruby`), modelled as `.error ()`. -/
def rubyLoop : List Node → Option String → Option String → List Content →
    Except Unit (List Content)
  | [], main, above, acc =>
      if main.isSome || above.isSome then .error () else .ok acc
  | .text t :: rest, _, above, acc =>
      -- `main = Some(text); continue;` — the pair check is skipped
      rubyLoop rest (some t) above acc
  | .element nm a ch :: rest, main, above, acc =>
      let c : Node := .element nm a ch
      let main' := if nm == "rb" then some c.textContents else main
      let above' := if nm == "rt" then some c.textContents else above
      match main', above' with
      | some m, some ab => rubyLoop rest none none (acc ++ [.ruby m ab])
      | m', ab' => rubyLoop rest m' ab' acc
  | .other :: rest, main, above, acc =>
      -- `_ => ()` — no change, then the pair check runs
      match main, above with
      | some m, some ab => rubyLoop rest none none (acc ++ [.ruby m ab])
      | m', ab' => rubyLoop rest m' ab' acc

/-- `novel_utils::get_ruby`: run the ruby loop on the children iff the element
is a `ruby` element, else produce nothing. -/
def getRuby (n : Node) : Except Unit (List Content) :=
  if n.tagName == "ruby" then rubyLoop n.children none none [] else .ok []

/-- The paragraph child walk shared by `syosetu/content.rs::get_line` (which
calls `novel_utils::get_ruby` on each element child) and
`kakuyomu/content.rs::get_content_line` (whose inline `if name == "ruby"`
guard plus loop is semantically `get_ruby`): a text child yields a span, an
element child yields its ruby pairs (none if not a `ruby` element), other
nodes are skipped. -/
def lineWalk : List Node → Except Unit (List Content)
  | [] => .ok []
  | .text t :: rest => (lineWalk rest).map (fun cs => .span t :: cs)
  | .element nm a ch :: rest => do
      let rc ← getRuby (.element nm a ch)
      let cs ← lineWalk rest
      pure (rc ++ cs)
  | .other :: rest => lineWalk rest

/-! ## Digit-to-kanji conversion -/

/-- `novel_utils::convert_num_string_to_ja` (the total variant used on chapter
dates): digits map to kanji numerals, any other character is kept. -/
def convertNumStringToJaUtils (s : String) : String :=
  String.mk (s.data.map (fun c =>
    if c = '0' then '〇' else if c = '1' then '一' else if c = '2' then '二'
    else if c = '3' then '三' else if c = '4' then '四' else if c = '5' then '五'
    else if c = '6' then '六' else if c = '7' then '七' else if c = '8' then '八'
    else if c = '9' then '九' else c))

/-- Per-character conversion of `novel.rs::convert_num_string_to_ja`:
`none` is the `_ => panic!("Didn't get a number")` branch. -/
def convertJaChar (c : Char) : Option Char :=
  if c = '0' then some '〇' else if c = '1' then some '一' else if c = '2' then some '二'
  else if c = '3' then some '三' else if c = '4' then some '四' else if c = '5' then some '五'
  else if c = '6' then some '六' else if c = '7' then some '七' else if c = '8' then some '八'
  else if c = '9' then some '九' else none

/-- `novel.rs::convert_num_string_to_ja`: maps every character; panics
(`none`) as soon as any character is not an ASCII digit. -/
def convertNumStringToJa (s : List Char) : Option (List Char) :=
  s.mapM convertJaChar

/-- The decimal rendering `u32::to_string` as a character list: standard
base-10 digits, most significant first. -/
def natDecimalChars (n : Nat) : List Char :=
  if h : n < 10 then [Char.ofNat (48 + n)]
  else natDecimalChars (n / 10) ++ [Char.ofNat (48 + n % 10)]
decreasing_by
  exact Nat.div_lt_self (by omega) (by omega)

/-- The one call site of the panicking converter, in `Chapter::make_xhtml`:
`convert_num_string_to_ja(&self.order_num.to_string())`. -/
def renderOrderNumJa (ch : Chapter) : Option (List Char) :=
  convertNumStringToJa (natDecimalChars ch.order_num)

/-! ## Worlds, effects, and hook construction -/

/-- Oracles for the external collaborators: CSS-selector compilation outcome
and page fetching (a fetch always parses to a tree; transport failures are
orthogonal to the claims proved here). -/
structure World where
  compiles : String → Bool
  page : String → Node

/-- Externally observable effects, used to order network activity against
construction-time errors. -/
inductive Effect where
  | fetchPage (uri : String)
  | traversal
deriving Repr, DecidableEq

/-- `TreeTraverser::add_hook`: compile the selector, then the optional
negative selector, failing with `CssSelectorCompilation` on the first failure;
on success append the hook.  The selector string's compiled meaning is the
accompanying predicate. -/
def addHook (w : World) (hooks : List (Hook T)) (sel : String)
    (selP : Node → List Nat → Bool) (neg : Option (String × (Node → List Nat → Bool)))
    (cb : T → Node → T) : Except TraverseError (List (Hook T)) :=
  if w.compiles sel then
    match neg with
    | some (ns, nsP) =>
        if w.compiles ns then .ok (hooks ++ [⟨selP, some nsP, cb⟩])
        else .error (.cssSelectorCompilation ns)
    | none => .ok (hooks ++ [⟨selP, none, cb⟩])
  else .error (.cssSelectorCompilation sel)

/-- Parent of the node at path `p` (the traversal root is the parent of the
nodes at depth one, as in kuchiki). -/
def selParent (root : Node) (p : List Nat) : Option Node :=
  if p.isEmpty then none else root.atPath p.dropLast

/-- Grandparent of the node at path `p`. -/
def selGrandparent (root : Node) (p : List Nat) : Option Node :=
  if p.length < 2 then none else root.atPath (p.dropLast.dropLast)

/-- CSS `:nth-child(k)` at path `p`: the node is an element and is the `k`-th
element among its parent's children (1-based, counting element children only,
as selector engines do). -/
def nthChildIs (root : Node) (p : List Nat) (k : Nat) : Bool :=
  match p.getLast?, selParent root p with
  | some i, some par =>
      (match par.children.get? i with | some c => c.isElement | none => false)
        && ((par.children.take (i + 1)).filter Node.isElement).length == k
  | _, _ => false

/-- kuchiki `select_first` on a subtree with a combinator-free selector:
the first element of the subtree (in document order) satisfying `pred`. -/
def Node.selectFirst (n : Node) (pred : Node → Bool) : Option Node :=
  ((n :: n.descWithPaths.map Prod.snd).filter (fun m => m.isElement && pred m)).head?

/-- Collect a list of results, surfacing the first error — the
`for r in results { v.push(r?); }` pattern of `fetch_chapters`/`fetch_sections`. -/
def collectExcept : List (Except ε α) → Except ε (List α)
  | [] => .ok []
  | .error e :: _ => .error e
  | .ok a :: rest => (collectExcept rest).map (fun l => a :: l)

/-! ## Kakuyomu content extractor (`src/novel/kakuyomu/content.rs`) -/

/-- `".widget-episodeBody > p"` (`CONTENT_LINE_SELECTOR`). -/
def selKContentLine (root : Node) (p : List Nat) : Bool :=
  match root.atPath p, selParent root p with
  | some el, some par =>
      el.tagName == "p" && par.isElement && par.hasClass "widget-episodeBody"
  | _, _ => false

/-- `".widget-episodeBody > p.blank"` (`BLANK_LINE_NEG`). -/
def selKBlankNeg (root : Node) (p : List Nat) : Bool :=
  match root.atPath p, selParent root p with
  | some el, some par =>
      el.tagName == "p" && el.hasClass "blank" && par.isElement
        && par.hasClass "widget-episodeBody"
  | _, _ => false

/-- `".widget-episodeBody > p.blank > br"` (`BLANK_LINE_SELECTOR`). -/
def selKBlank (root : Node) (p : List Nat) : Bool :=
  match root.atPath p, selParent root p, selGrandparent root p with
  | some el, some par, some gp =>
      el.tagName == "br" && par.tagName == "p" && par.hasClass "blank"
        && gp.isElement && gp.hasClass "widget-episodeBody"
  | _, _, _ => false

/-- `ContentData::get_content_line` (kakuyomu): walk the paragraph's children
and push one `Line` (possibly with an empty span list); a malformed ruby
panics. -/
def kGetContentLine (d : Except Unit (List ContentLine)) (el : Node) :
    Except Unit (List ContentLine) :=
  match d with
  | .error e => .error e
  | .ok lines => (lineWalk el.children).map (fun cs => lines ++ [.line cs])

/-- `ContentData::get_blank_line` (kakuyomu): push one `Blank`. -/
def kGetBlankLine (d : Except Unit (List ContentLine)) (_el : Node) :
    Except Unit (List ContentLine) :=
  d.map (fun lines => lines ++ [.blank])

/-- The two hooks of `fetch_novel_content`, built in registration order. -/
def kakuyomuContentHooks (w : World) :
    Except TraverseError (List (Hook (Except Unit (List ContentLine)))) := do
  let hooks ← addHook w [] ".widget-episodeBody > p" selKContentLine
      (some (".widget-episodeBody > p.blank", selKBlankNeg)) kGetContentLine
  addHook w hooks ".widget-episodeBody > p.blank > br" selKBlank none kGetBlankLine

/-- `kakuyomu::content::fetch_novel_content`: fetch the page, build the hooks,
traverse, and fail if no lines were produced. -/
def fetchNovelContent (w : World) (uri : String) :
    Except NovelError (List ContentLine) × List Effect :=
  let tr := [Effect.fetchPage uri]
  let node := w.page uri
  match kakuyomuContentHooks w with
  | .error e => (.error (.traverseError e), tr)
  | .ok hooks =>
      match traverse node hooks (.ok []) with
      | .error _ => (.error .panicked, tr ++ [.traversal])
      | .ok lines =>
          if lines.isEmpty then (.error (.componentMissing .chapterContent), tr ++ [.traversal])
          else (.ok lines, tr ++ [.traversal])

/-! ## Syosetu content extractor (`src/novel/syosetu/content.rs`) -/

/-- `"#novel_honbun > p"` (`LINE_SELECTOR`). -/
def selSLine (root : Node) (p : List Nat) : Bool :=
  match root.atPath p, selParent root p with
  | some el, some par =>
      el.tagName == "p" && par.isElement && par.idAttr == some "novel_honbun"
  | _, _ => false

/-- `"#novel_honbun > p > br"` (`BLANK_SELECTOR`). -/
def selSBlank (root : Node) (p : List Nat) : Bool :=
  match root.atPath p, selParent root p, selGrandparent root p with
  | some el, some par, some gp =>
      el.tagName == "br" && par.tagName == "p" && gp.isElement
        && gp.idAttr == some "novel_honbun"
  | _, _, _ => false

/-- `ContentData::get_line` (syosetu): walk the paragraph's children and push
one `Line` only if any content was collected — an empty walk pushes nothing. -/
def sGetLine (d : Except Unit (List ContentLine)) (el : Node) :
    Except Unit (List ContentLine) :=
  match d with
  | .error e => .error e
  | .ok lines =>
      (lineWalk el.children).map (fun cs => if cs.isEmpty then lines else lines ++ [.line cs])

/-- `ContentData::get_blank` (syosetu): push one `Blank`. -/
def sGetBlank (d : Except Unit (List ContentLine)) (_el : Node) :
    Except Unit (List ContentLine) :=
  d.map (fun lines => lines ++ [.blank])

/-- The two hooks of `fetch_page_content`, in registration order. -/
def syosetuContentHooks (w : World) :
    Except TraverseError (List (Hook (Except Unit (List ContentLine)))) := do
  let hooks ← addHook w [] "#novel_honbun > p" selSLine none sGetLine
  addHook w hooks "#novel_honbun > p > br" selSBlank none sGetBlank

/-- `syosetu::content::fetch_page_content`. -/
def fetchPageContent (w : World) (uri : String) :
    Except NovelError (List ContentLine) × List Effect :=
  let tr := [Effect.fetchPage uri]
  let node := w.page uri
  match syosetuContentHooks w with
  | .error e => (.error (.traverseError e), tr)
  | .ok hooks =>
      match traverse node hooks (.ok []) with
      | .error _ => (.error .panicked, tr ++ [.traversal])
      | .ok lines =>
          if lines.isEmpty then (.error (.componentMissing .chapterContent), tr ++ [.traversal])
          else (.ok lines, tr ++ [.traversal])

/-! ## Kakuyomu table-of-contents adapter (`src/novel/kakuyomu.rs`) -/

/-- `ChapterInfo` (kakuyomu's and syosetu's are identical up to the name of
the path field). -/
structure ChapterInfo where
  name : String
  date : String
  order_num : Nat
  uri_path : String
deriving Repr, DecidableEq

/-- `SectionInfo`. -/
structure SectionInfo where
  name : String
  chapters : List ChapterInfo
deriving Repr, DecidableEq

/-- The kakuyomu main-page accumulator `MainPageData`. -/
structure MainPageData where
  title : Option String
  author : Option String
  status : Option NovelStatus
  sections : List SectionInfo
  chapters : List ChapterInfo
  chapter_count : Nat
deriving Repr, DecidableEq

/-- `MainPageData::default()`. -/
def MainPageData.default : MainPageData := ⟨none, none, none, [], [], 0⟩

/-- Apply `f` to the last element of a list (`Vec::last_mut`). -/
def updateLast (f : α → α) : List α → List α
  | [] => []
  | [x] => [f x]
  | x :: y :: rest => x :: updateLast f (y :: rest)

/-- `MainPageData::move_chapters_to_section`: if a last section exists, drain
the accumulated top-level chapters into it. -/
def MainPageData.moveChaptersToSection (d : MainPageData) : MainPageData :=
  if d.sections.isEmpty then d
  else
    { d with
      sections := updateLast (fun s => { s with chapters := s.chapters ++ d.chapters }) d.sections
      chapters := [] }

/-- `MainPageData::increment_and_get_chapters`: bump the `u32` counter and
return it (modelled with the `u32` wraparound made explicit). -/
def MainPageData.incrementAndGetChapters (d : MainPageData) : MainPageData × Nat :=
  let c := (d.chapter_count + 1) % U32
  ({ d with chapter_count := c }, c)

/-- `MainPageData::get_title`. -/
def kGetTitle (d : Except Unit MainPageData) (el : Node) : Except Unit MainPageData :=
  d.map (fun d => { d with title := some el.textContents })

/-- `MainPageData::get_author`. -/
def kGetAuthor (d : Except Unit MainPageData) (el : Node) : Except Unit MainPageData :=
  d.map (fun d => { d with author := some el.textContents })

/-- `MainPageData::get_status`: the exact vocabulary `連載中` ↦ Running,
`完結済` ↦ Finished; any other text leaves the field untouched (`_ => return`). -/
def kGetStatus (d : Except Unit MainPageData) (el : Node) : Except Unit MainPageData :=
  d.map (fun d =>
    if el.textContents == "連載中" then { d with status := some .running }
    else if el.textContents == "完結済" then { d with status := some .finished }
    else d)

/-- `MainPageData::get_section`: flush the pending chapters into the previous
section, then start a new empty section. -/
def kGetSection (d : Except Unit MainPageData) (el : Node) : Except Unit MainPageData :=
  d.map (fun d =>
    let d := d.moveChaptersToSection
    { d with sections := d.sections ++ [⟨el.textContents, []⟩] })

/-- `"span.widget-toc-episode-titleLabel"` (`CHAPTER_NAME_SELECTOR`). -/
def chapterNamePred (m : Node) : Bool :=
  m.tagName == "span" && m.hasClass "widget-toc-episode-titleLabel"

/-- `"time.widget-toc-episode-datePublished"` (`CHAPTER_DATE_SELECTOR`). -/
def chapterDatePred (m : Node) : Bool :=
  m.tagName == "time" && m.hasClass "widget-toc-episode-datePublished"

/-- `MainPageData::get_chapter`: look up the name and date nodes and the
`href` attribute (each `unwrap` panics on absence), convert digits in the date
to kanji, assign the next order number, and push the chapter descriptor. -/
def kGetChapter (d : Except Unit MainPageData) (el : Node) : Except Unit MainPageData :=
  match d with
  | .error e => .error e
  | .ok d =>
      match el.selectFirst chapterNamePred with
      | none => .error ()
      | some nameNode =>
          match el.selectFirst chapterDatePred with
          | none => .error ()
          | some dateNode =>
              match el.attr "href" with
              | none => .error ()
              | some uriPath =>
                  let date := convertNumStringToJaUtils dateNode.textContents
                  let (d', orderNum) := d.incrementAndGetChapters
                  .ok { d' with
                    chapters := d'.chapters ++ [⟨nameNode.textContents, date, orderNum, uriPath⟩] }

/-- `"#workTitle > a"` (`TITLE_SELECTOR`). -/
def selKTitle (root : Node) (p : List Nat) : Bool :=
  match root.atPath p, selParent root p with
  | some el, some par =>
      el.tagName == "a" && par.isElement && par.idAttr == some "workTitle"
  | _, _ => false

/-- `"#workAuthor-activityName > a"` (`AUTHOR_SELECTOR`). -/
def selKAuthor (root : Node) (p : List Nat) : Bool :=
  match root.atPath p, selParent root p with
  | some el, some par =>
      el.tagName == "a" && par.isElement && par.idAttr == some "workAuthor-activityName"
  | _, _ => false

/-- `"div#workInformationList > dl > dd:nth-child(2)"` (`STATUS_SELECTOR`). -/
def selKStatus (root : Node) (p : List Nat) : Bool :=
  match root.atPath p, selParent root p, selGrandparent root p with
  | some el, some par, some gp =>
      el.tagName == "dd" && nthChildIs root p 2 && par.tagName == "dl"
        && gp.tagName == "div" && gp.idAttr == some "workInformationList"
  | _, _, _ => false

/-- `"li.widget-toc-chapter > span"` (`SECTION_SELECTOR`). -/
def selKSection (root : Node) (p : List Nat) : Bool :=
  match root.atPath p, selParent root p with
  | some el, some par =>
      el.tagName == "span" && par.tagName == "li" && par.hasClass "widget-toc-chapter"
  | _, _ => false

/-- `"li.widget-toc-episode > a"` (`CHAPTER_SELECTOR`). -/
def selKChapter (root : Node) (p : List Nat) : Bool :=
  match root.atPath p, selParent root p with
  | some el, some par =>
      el.tagName == "a" && par.tagName == "li" && par.hasClass "widget-toc-episode"
  | _, _ => false

/-- The five kakuyomu main-page hooks, built in registration order
(`make_kakuyomu_novel` lines 48–54). -/
def kakuyomuMainHooks (w : World) :
    Except TraverseError (List (Hook (Except Unit MainPageData))) := do
  let hooks ← addHook w [] "#workTitle > a" selKTitle none kGetTitle
  let hooks ← addHook w hooks "#workAuthor-activityName > a" selKAuthor none kGetAuthor
  let hooks ← addHook w hooks "div#workInformationList > dl > dd:nth-child(2)" selKStatus
      none kGetStatus
  let hooks ← addHook w hooks "li.widget-toc-chapter > span" selKSection none kGetSection
  addHook w hooks "li.widget-toc-episode > a" selKChapter none kGetChapter

/-- `make_uri` (kakuyomu): absolute address on the kakuyomu host. -/
def kakuyomuChapterUri (ci : ChapterInfo) : String :=
  "https://kakuyomu.jp" ++ ci.uri_path

/-- `ChapterInfo::fetch_chapter`. -/
def kFetchChapter (w : World) (ci : ChapterInfo) : Except NovelError Chapter × List Effect :=
  let (r, tr) := fetchNovelContent w (kakuyomuChapterUri ci)
  (r.map (fun content => ⟨ci.name, ci.date, ci.order_num, content⟩), tr)

/-- `fetch_chapters` (kakuyomu): every fetch runs (concurrently in the source,
order-preserving `collect`), then the first error — if any — is surfaced. -/
def kFetchChapters (w : World) (cis : List ChapterInfo) :
    Except NovelError (List Chapter) × List Effect :=
  let results := cis.map (kFetchChapter w)
  (collectExcept (results.map Prod.fst), (results.map Prod.snd).flatten)

/-- `SectionInfo::fetch_section`. -/
def kFetchSection (w : World) (si : SectionInfo) : Except NovelError Section × List Effect :=
  let (r, tr) := kFetchChapters w si.chapters
  (r.map (fun chs => ⟨si.name, chs⟩), tr)

/-- `fetch_sections` (kakuyomu). -/
def kFetchSections (w : World) (sis : List SectionInfo) :
    Except NovelError (List Section) × List Effect :=
  let results := sis.map (kFetchSection w)
  (collectExcept (results.map Prod.fst), (results.map Prod.snd).flatten)

/-- `make_kakuyomu_novel` lines 56–85: the final flush, the field validation,
the per-section / flat-chapter validation, the content fetches, and assembly. -/
def kakuyomuAssemble (w : World) (uri : String) (d : MainPageData) :
    Except NovelError Novel × List Effect :=
  let d := d.moveChaptersToSection
  match d.title with
  | none => (.error (.componentMissing .title), [])
  | some title =>
      match d.author with
      | none => (.error (.componentMissing .author), [])
      | some author =>
          match d.status with
          | none => (.error (.componentMissing .status), [])
          | some status =>
              if d.sections.isEmpty then
                if d.chapters.isEmpty then (.error (.componentMissing .chapter), [])
                else
                  let (r, tr) := kFetchChapters w d.chapters
                  (r.map (fun chs => ⟨title, author, status, uri, .chapters chs⟩), tr)
              else
                if d.sections.any (fun s => s.chapters.isEmpty) then
                  (.error (.componentMissing .chapterUnderSection), [])
                else
                  let (r, tr) := kFetchSections w d.sections
                  (r.map (fun ss => ⟨title, author, status, uri, .sections ss⟩), tr)

/-- `make_kakuyomu_novel`: fetch the table-of-contents page *first*, then
build the hooks (compiling the selectors), then traverse and assemble. -/
def makeKakuyomuNovel (w : World) (uri : String) :
    Except NovelError Novel × List Effect :=
  let tr := [Effect.fetchPage uri]
  let node := w.page uri
  match kakuyomuMainHooks w with
  | .error e => (.error (.traverseError e), tr)
  | .ok hooks =>
      match traverse node hooks (.ok MainPageData.default) with
      | .error _ => (.error .panicked, tr ++ [.traversal])
      | .ok d =>
          let (r, tr2) := kakuyomuAssemble w uri d
          (r, tr ++ [.traversal] ++ tr2)

/-! ## Syosetu info page (`src/novel/syosetu/info_page.rs`) -/

/-- The info-page accumulator `InfoPageData`. -/
structure InfoPageData where
  status : Option NovelStatus
deriving Repr, DecidableEq

/-- `"#noveltype"` (`FINISHED_SELECTOR`). -/
def selInfoFinished (root : Node) (p : List Nat) : Bool :=
  match root.atPath p with
  | some el => el.idAttr == some "noveltype"
  | none => false

/-- `"#noveltype_notend"` (`RUNNING_SELECTOR`). -/
def selInfoRunning (root : Node) (p : List Nat) : Bool :=
  match root.atPath p with
  | some el => el.idAttr == some "noveltype_notend"
  | none => false

/-- `InfoPageData::get_finished`. -/
def infoGetFinished (d : InfoPageData) (_el : Node) : InfoPageData :=
  { d with status := some .finished }

/-- `InfoPageData::get_running`. -/
def infoGetRunning (d : InfoPageData) (_el : Node) : InfoPageData :=
  { d with status := some .running }

/-- The two info-page hooks, in registration order. -/
def infoHooks (w : World) : Except TraverseError (List (Hook InfoPageData)) := do
  let hooks ← addHook w [] "#noveltype" selInfoFinished none infoGetFinished
  addHook w hooks "#noveltype_notend" selInfoRunning none infoGetRunning

/-- `fetch_status_in_info`: fetch the info page, traverse with the two marker
hooks, and fail with `ComponentMissing(Status)` if neither marker was seen. -/
def fetchStatusInInfo (w : World) (uri : String) :
    Except NovelError NovelStatus × List Effect :=
  let tr := [Effect.fetchPage uri]
  let node := w.page uri
  match infoHooks w with
  | .error e => (.error (.traverseError e), tr)
  | .ok hooks =>
      let d := traverse node hooks ⟨none⟩
      match d.status with
      | some s => (.ok s, tr ++ [.traversal])
      | none => (.error (.componentMissing .status), tr ++ [.traversal])

/-! ## Syosetu table-of-contents assembly (`src/novel/syosetu.rs`) -/

/-- The syosetu main-page accumulator `MainPageData` (distinct from
kakuyomu's: status is replaced by the info-page link). -/
structure SMainPageData where
  title : Option String
  author : Option String
  info_path : Option String
  sections : List SectionInfo
  chapters : List ChapterInfo
  chapter_count : Nat
deriving Repr, DecidableEq

/-- `MainPageData::append_chapters_to_section` (syosetu), identical to
kakuyomu's `move_chapters_to_section`. -/
def SMainPageData.appendChaptersToSection (d : SMainPageData) : SMainPageData :=
  if d.sections.isEmpty then d
  else
    { d with
      sections := updateLast (fun s => { s with chapters := s.chapters ++ d.chapters }) d.sections
      chapters := [] }

/-- `make_uri` (syosetu): absolute addresses pass through, relative paths are
resolved against the syosetu host. -/
def syosetuMakeUri (path : String) : String :=
  if path.startsWith "http" then path else "https://ncode.syosetu.com" ++ path

/-- `ChapterInfo::fetch` (syosetu). -/
def sFetchChapter (w : World) (ci : ChapterInfo) : Except NovelError Chapter × List Effect :=
  let (r, tr) := fetchPageContent w (syosetuMakeUri ci.uri_path)
  (r.map (fun content => ⟨ci.name, ci.date, ci.order_num, content⟩), tr)

/-- `fetch_chapters` (syosetu; sequential in the source, same order
semantics). -/
def sFetchChapters (w : World) (cis : List ChapterInfo) :
    Except NovelError (List Chapter) × List Effect :=
  let results := cis.map (sFetchChapter w)
  (collectExcept (results.map Prod.fst), (results.map Prod.snd).flatten)

/-- `SectionInfo::fetch` (syosetu). -/
def sFetchSection (w : World) (si : SectionInfo) : Except NovelError Section × List Effect :=
  let (r, tr) := sFetchChapters w si.chapters
  (r.map (fun chs => ⟨si.name, chs⟩), tr)

/-- `fetch_sections` (syosetu). -/
def sFetchSections (w : World) (sis : List SectionInfo) :
    Except NovelError (List Section) × List Effect :=
  let results := sis.map (sFetchSection w)
  (collectExcept (results.map Prod.fst), (results.map Prod.snd).flatten)

/-- `make_syosetu_novel` lines 49–81: the final flush, validation of
title/author/info-link, the status fetch from the info page, the section /
chapter validation, the content fetches, and assembly. -/
def syosetuAssemble (w : World) (uri : String) (d : SMainPageData) :
    Except NovelError Novel × List Effect :=
  let d := d.appendChaptersToSection
  match d.title with
  | none => (.error (.componentMissing .title), [])
  | some title =>
      match d.author with
      | none => (.error (.componentMissing .author), [])
      | some author =>
          match d.info_path with
          | none => (.error (.componentMissing .infoPath), [])
          | some infoPath =>
              match fetchStatusInInfo w (syosetuMakeUri infoPath) with
              | (.error e, tr0) => (.error e, tr0)
              | (.ok status, tr0) =>
                  if d.sections.isEmpty then
                    if d.chapters.isEmpty then
                      (.error (.componentMissing .chapter), tr0)
                    else
                      let (r, tr) := sFetchChapters w d.chapters
                      (r.map (fun chs => ⟨title, author, status, uri, .chapters chs⟩), tr0 ++ tr)
                  else
                    if d.sections.any (fun s => s.chapters.isEmpty) then
                      (.error (.componentMissing .chapterUnderSection), tr0)
                    else
                      let (r, tr) := sFetchSections w d.sections
                      (r.map (fun ss => ⟨title, author, status, uri, .sections ss⟩), tr0 ++ tr)

/-! ## Observers and hook-list values used by the theorems -/

/-- Total observer of the ruby loop's walk: the spans emitted so far and the
final (base, gloss) pair state, with no abort. -/
def rubyScan : List Node → Option String → Option String → List Content →
    (List Content × Option String × Option String)
  | [], main, above, acc => (acc, main, above)
  | .text t :: rest, _, above, acc => rubyScan rest (some t) above acc
  | .element nm a ch :: rest, main, above, acc =>
      let c : Node := .element nm a ch
      let main' := if nm == "rb" then some c.textContents else main
      let above' := if nm == "rt" then some c.textContents else above
      match main', above' with
      | some m, some ab => rubyScan rest none none (acc ++ [.ruby m ab])
      | m', ab' => rubyScan rest m' ab' acc
  | .other :: rest, main, above, acc =>
      match main, above with
      | some m, some ab => rubyScan rest none none (acc ++ [.ruby m ab])
      | m', ab' => rubyScan rest m' ab' acc

/-- When `Hook::match_element` invokes the callback: the selector matches and
either there is no anti-selector or it does not match. -/
def hookFires (root : Node) (h : Hook T) (p : List Nat) : Bool :=
  h.sel root p && (match h.neg with | none => true | some ns => !ns root p)

/-- The kakuyomu main-page hook list value (what `kakuyomuMainHooks` yields
when every selector compiles). -/
def kakuyomuHookList : List (Hook (Except Unit MainPageData)) :=
  [⟨selKTitle, none, kGetTitle⟩, ⟨selKAuthor, none, kGetAuthor⟩,
   ⟨selKStatus, none, kGetStatus⟩, ⟨selKSection, none, kGetSection⟩,
   ⟨selKChapter, none, kGetChapter⟩]

/-- The kakuyomu main-page traversal (`make_kakuyomu_novel` line 48–54). -/
def kakuyomuMainScan (root : Node) : Except Unit MainPageData :=
  traverse root kakuyomuHookList (.ok MainPageData.default)

/-- The kakuyomu content hook list value. -/
def kContentHookList : List (Hook (Except Unit (List ContentLine))) :=
  [⟨selKContentLine, some selKBlankNeg, kGetContentLine⟩,
   ⟨selKBlank, none, kGetBlankLine⟩]

/-- The kakuyomu chapter-body traversal. -/
def kakuyomuContentScan (root : Node) : Except Unit (List ContentLine) :=
  traverse root kContentHookList (.ok [])

/-- The syosetu content hook list value. -/
def sContentHookList : List (Hook (Except Unit (List ContentLine))) :=
  [⟨selSLine, none, sGetLine⟩, ⟨selSBlank, none, sGetBlank⟩]

/-- The syosetu chapter-body traversal. -/
def syosetuContentScan (root : Node) : Except Unit (List ContentLine) :=
  traverse root sContentHookList (.ok [])

/-- The info-page hook list value. -/
def infoHookList : List (Hook InfoPageData) :=
  [⟨selInfoFinished, none, infoGetFinished⟩, ⟨selInfoRunning, none, infoGetRunning⟩]

/-- The info-page traversal. -/
def infoScan (root : Node) : InfoPageData :=
  traverse root infoHookList ⟨none⟩

/-- Document-order list of status markers on a syosetu info page. -/
def infoMarkers (root : Node) : List NovelStatus :=
  (root.descWithPaths).filterMap (fun pe =>
    if pe.2.isElement then
      if selInfoFinished root pe.1 then some .finished
      else if selInfoRunning root pe.1 then some .running
      else none
    else none)

/-! ## Event projections of the kakuyomu main-page traversal -/

/-- The chapter data `get_chapter` extracts from a chapter link element
(`none` when any of the three `unwrap`s would panic). -/
def chapExtract (el : Node) : Option (String × String × String) :=
  match el.selectFirst chapterNamePred, el.selectFirst chapterDatePred, el.attr "href" with
  | some nameNode, some dateNode, some href =>
      some (nameNode.textContents, convertNumStringToJaUtils dateNode.textContents, href)
  | _, _, _ => none

/-- A table-of-contents event: a section heading, a chapter entry (with its
extracted name/date/address), or a panic inside the chapter hook. -/
inductive TocEvent where
  | sec (name : String)
  | chap (name date href : String)
  | panic
deriving Repr, DecidableEq

/-- The toc event (if any) a visited node produces. -/
def tocEventOf (root : Node) (pe : List Nat × Node) : Option TocEvent :=
  if pe.2.isElement then
    if selKSection root pe.1 then some (.sec pe.2.textContents)
    else if selKChapter root pe.1 then
      match chapExtract pe.2 with
      | some (n, d, h) => some (.chap n d h)
      | none => some .panic
    else none
  else none

/-- The document-order toc event list of a main page. -/
def tocEvents (root : Node) : List TocEvent :=
  (root.descWithPaths).filterMap (tocEventOf root)

/-- The section/chapter/counter projection of the main-page accumulator. -/
structure TocAcc where
  sections : List SectionInfo
  chapters : List ChapterInfo
  count : Nat
deriving Repr, DecidableEq

/-- Projection from `MainPageData`. -/
def MainPageData.toToc (d : MainPageData) : TocAcc :=
  ⟨d.sections, d.chapters, d.chapter_count⟩

/-- Projection lifted over the panic monad. -/
def tocProj : Except Unit MainPageData → Except Unit TocAcc
  | .error e => .error e
  | .ok d => .ok d.toToc

/-- `move_chapters_to_section` at the projection level. -/
def tocFlush (s : TocAcc) : TocAcc :=
  if s.sections.isEmpty then s
  else
    ⟨updateLast (fun sec => { sec with chapters := sec.chapters ++ s.chapters }) s.sections,
      [], s.count⟩

/-- The effect of one toc event on the projection (panic-free total form;
the `panic` case is never taken on a run that succeeds). -/
def tocStepA (s : TocAcc) : TocEvent → TocAcc
  | .sec nm => ⟨(tocFlush s).sections ++ [⟨nm, []⟩], (tocFlush s).chapters, s.count⟩
  | .chap n d h =>
      let c := (s.count + 1) % U32
      ⟨s.sections, s.chapters ++ [⟨n, d, c, h⟩], c⟩
  | .panic => s

/-- The effect of one toc event, panics included. -/
def tocStep (s : Except Unit TocAcc) (e : TocEvent) : Except Unit TocAcc :=
  match s, e with
  | .error u, _ => .error u
  | .ok _, .panic => .error ()
  | .ok s, e => .ok (tocStepA s e)

/-- Run all toc events. -/
def runToc (evs : List TocEvent) (s : Except Unit TocAcc) : Except Unit TocAcc :=
  evs.foldl tocStep s

/-- Run all toc events, total form. -/
def runTocAcc (evs : List TocEvent) (s : TocAcc) : TocAcc :=
  evs.foldl tocStepA s

/-- A status event on the kakuyomu main page: the text of a status element,
or a panic inside the chapter hook. -/
inductive StEvent where
  | txt (s : String)
  | panic
deriving Repr, DecidableEq

/-- The status event (if any) a visited node produces. -/
def stEventOf (root : Node) (pe : List Nat × Node) : Option StEvent :=
  if pe.2.isElement then
    if selKStatus root pe.1 then some (.txt pe.2.textContents)
    else if selKChapter root pe.1 then
      match chapExtract pe.2 with
      | some _ => none
      | none => some .panic
    else none
  else none

/-- The document-order status event list of a main page. -/
def stEvents (root : Node) : List StEvent :=
  (root.descWithPaths).filterMap (stEventOf root)

/-- The status-field projection. -/
def statusProj : Except Unit MainPageData → Except Unit (Option NovelStatus)
  | .error e => .error e
  | .ok d => .ok d.status

/-- `get_status`'s exact vocabulary, as a transition on the status field. -/
def recognizeStatus (t : String) (st : Option NovelStatus) : Option NovelStatus :=
  if t == "連載中" then some .running
  else if t == "完結済" then some .finished
  else st

/-- The effect of one status event. -/
def stStep (s : Except Unit (Option NovelStatus)) (e : StEvent) :
    Except Unit (Option NovelStatus) :=
  match s, e with
  | .error u, _ => .error u
  | .ok _, .panic => .error ()
  | .ok st, .txt t => .ok (recognizeStatus t st)

/-! ## Spec-side reference functions for the section/chapter association -/

/-- A chapter payload: extracted name, converted date, fetch address. -/
abbrev Payload := String × String × String

/-- Payload of a chapter descriptor. -/
def chPayload (c : ChapterInfo) : Payload := (c.name, c.date, c.uri_path)

/-- Payload view of a section. -/
def secPayload (si : SectionInfo) : String × List Payload :=
  (si.name, si.chapters.map chPayload)

/-- Document-order chapter payloads of a toc event list. -/
def payloads (evs : List TocEvent) : List Payload :=
  evs.filterMap (fun e =>
    match e with
    | .chap n d h => some (n, d, h)
    | _ => none)

/-- Spec-side reading of the table of contents: the chapters that precede the
first section heading, and, per heading in document order, the chapters whose
nearest preceding heading it is. -/
def parseToc : List TocEvent → List Payload × List (String × List Payload)
  | [] => ([], [])
  | .chap n d h :: rest =>
      let pr := parseToc rest
      ((n, d, h) :: pr.1, pr.2)
  | .sec nm :: rest =>
      let pr := parseToc rest
      ([], (nm, pr.1) :: pr.2)
  | .panic :: rest => parseToc rest

/-- The boundary flush at the payload level: pending chapters are appended to
the last open section if one exists, otherwise they stay pending. -/
def flushSpecP (secs : List (String × List Payload)) (pend : List Payload) :
    List (String × List Payload) × List Payload :=
  if secs.isEmpty then (secs, pend)
  else (updateLast (fun g => (g.1, g.2 ++ pend)) secs, [])

/-- Fold the parsed heading groups left to right with the boundary flush,
ending with the final flush — the association algorithm at the payload
level. -/
def specGroups (secs : List (String × List Payload)) (pend : List Payload) :
    List (String × List Payload) → List (String × List Payload) × List Payload
  | [] => flushSpecP secs pend
  | (nm, ps) :: more =>
      let f := flushSpecP secs pend
      specGroups (f.1 ++ [(nm, [])]) (f.2 ++ ps) more

/-- Assign document-order sequential `u32` order numbers starting above `c`
(with the `u32` wraparound of the running counter made explicit). -/
def numberFrom (c : Nat) : List Payload → List ChapterInfo
  | [] => []
  | p :: ps => ⟨p.1, p.2.1, (c + 1) % U32, p.2.2⟩ :: numberFrom ((c + 1) % U32) ps

/-- The running counter after numbering `ps` starting from `c`. -/
def countFrom (c : Nat) : List Payload → Nat
  | [] => c
  | _ :: ps => countFrom ((c + 1) % U32) ps

/-- All chapter descriptors of the accumulator, in stored order: the section
chapters in section order, then the pending top-level chapters. -/
def flatChapters (s : TocAcc) : List ChapterInfo :=
  (s.sections.map SectionInfo.chapters).flatten ++ s.chapters

/-- The flat document-order list of chapter order numbers of an assembled
work. -/
def novelOrderNums (n : Novel) : List Nat :=
  match n.contents with
  | .sections ss => (ss.map (fun s => s.chapters.map Chapter.order_num)).flatten
  | .chapters cs => cs.map Chapter.order_num

/-! ## Per-element contributions of the content extractors -/

/-- What one visited node contributes to the kakuyomu content line list (on a
run where no paragraph walk panics): a line for a paragraph matched by the
content-line hook and not excluded by its anti-selector, a blank for each
`br` matched by the blank-line hook. -/
def kLineContrib (root : Node) (pe : List Nat × Node) : Option ContentLine :=
  if pe.2.isElement then
    if selKContentLine root pe.1 && !selKBlankNeg root pe.1 then
      match lineWalk pe.2.children with
      | .ok cs => some (.line cs)
      | .error _ => none
    else if selKBlank root pe.1 then some .blank
    else none
  else none

/-- What one visited node contributes to the syosetu content line list: as
for kakuyomu, except that a paragraph whose walk collects nothing contributes
nothing. -/
def sLineContrib (root : Node) (pe : List Nat × Node) : Option ContentLine :=
  if pe.2.isElement then
    if selSLine root pe.1 then
      match lineWalk pe.2.children with
      | .ok cs => if cs.isEmpty then none else some (.line cs)
      | .error _ => none
    else if selSBlank root pe.1 then some .blank
    else none
  else none

/-- An `rb` element carrying one text child. -/
def rbN (s : String) : Node := .element "rb" [] [.text s]

/-- An `rt` element carrying one text child. -/
def rtN (s : String) : Node := .element "rt" [] [.text s]

/-! ## Concrete pages, worlds and data used by witnesses and counterexamples -/

/-- A ruby group whose gloss is set by an `rt` child and whose base is then
set by a plain text child:  both are collected, but the text arm's `continue`
skips the emission check. -/
def badRubyNode : Node :=
  .element "ruby" [] [.element "rt" [] [.text "ヨ"], .text "基"]

/-- A chapter entry of a kakuyomu table of contents. -/
def chapLi (nm dt href : String) : Node :=
  .element "li" [("class", "widget-toc-episode")]
    [.element "a" [("href", href)]
      [.element "span" [("class", "widget-toc-episode-titleLabel")] [.text nm],
       .element "time" [("class", "widget-toc-episode-datePublished")] [.text dt]]]

/-- A section heading of a kakuyomu table of contents. -/
def secLi (nm : String) : Node :=
  .element "li" [("class", "widget-toc-chapter")] [.element "span" [] [.text nm]]

/-- A table of contents with one chapter before the first heading. -/
def tocRoot0 : Node :=
  .element "body" []
    [chapLi "c0" "x" "/e0", secLi "A", chapLi "c1" "y" "/e1", secLi "B", chapLi "c2" "z" "/e2"]

/-- The accumulator value the traversal of `tocRoot0` produces. -/
def d0Toc : MainPageData :=
  ⟨none, none, none,
    [⟨"A", [⟨"c0", "x", 1, "/e0"⟩, ⟨"c1", "y", 2, "/e1"⟩]⟩, ⟨"B", []⟩],
    [⟨"c2", "z", 3, "/e2"⟩], 3⟩

/-- The kakuyomu title block. -/
def titleDiv : Node :=
  .element "div" [("id", "workTitle")] [.element "a" [] [.text "T"]]

/-- The kakuyomu author block. -/
def authorDiv : Node :=
  .element "div" [("id", "workAuthor-activityName")] [.element "a" [] [.text "Au"]]

/-- The kakuyomu information list with the status in the second `dd`-slot. -/
def statusDiv (st : String) : Node :=
  .element "div" [("id", "workInformationList")]
    [.element "dl" [] [.element "dt" [] [.text "s"], .element "dd" [] [.text st]]]

/-- A complete main page: title, author, running status, two chapters, no
sections. -/
def mainRoot1 : Node :=
  .element "body" []
    [titleDiv, authorDiv, statusDiv "連載中", chapLi "c1" "x" "/e1", chapLi "c2" "y" "/e2"]

/-- A one-paragraph chapter body. -/
def contentRoot1 : Node :=
  .element "div" [("class", "widget-episodeBody")] [.element "p" [] [.text "hello"]]

/-- A chapter body whose only paragraph is empty (and not marked blank). -/
def emptyParaRoot : Node :=
  .element "div" [("class", "widget-episodeBody")] [.element "p" [] []]

/-- A chapter body with a marked blank paragraph then a text paragraph. -/
def blankThenTextRoot : Node :=
  .element "div" [("class", "widget-episodeBody")]
    [.element "p" [("class", "blank")] [.element "br" [] []],
     .element "p" [] [.text "t"]]

/-- A syosetu chapter body with a text paragraph and a paragraph holding only
a `br`. -/
def sBodyRoot : Node :=
  .element "div" [("id", "novel_honbun")]
    [.element "p" [] [.text "t"],
     .element "p" [] [.element "br" [] []]]

/-- A world where everything compiles, the address `"main"` is the complete
main page, and every other address is the one-paragraph chapter body. -/
def w1 : World :=
  ⟨fun _ => true, fun u => if u == "main" then mainRoot1 else contentRoot1⟩

/-- A world whose CSS engine rejects the kakuyomu title selector. -/
def w5 : World :=
  ⟨fun s => s != "#workTitle > a", fun _ => .other⟩

/-- A syosetu info page holding only the completed marker. -/
def infoFinishedRoot : Node :=
  .element "body" [] [.element "span" [("id", "noveltype")] [.text "完結"]]

/-- A syosetu info page holding only the ongoing marker. -/
def infoRunningRoot : Node :=
  .element "body" [] [.element "span" [("id", "noveltype_notend")] [.text "連載中"]]

/-- A syosetu info page holding no status marker. -/
def infoEmptyRoot : Node :=
  .element "body" [] [.element "span" [] [.text "何もない"]]

/-- A world serving a given page at every address, with a working CSS
engine. -/
def constWorld (n : Node) : World := ⟨fun _ => true, fun _ => n⟩

/-- A kakuyomu main page holding only a completed status marker. -/
def kStatusRoot : Node := .element "body" [] [statusDiv "完結済"]



/-! # Proofs -/

/-! ## C10: the digit-to-kanji renderer never panics on an order number -/

/-! ## Event projections of the content traversals -/

/-- A content event: a pushed text line, a pushed blank line, or a panic
inside a paragraph walk (malformed ruby). -/
inductive CEvent where
  | line (cs : List Content)
  | blankL
  | panic
deriving Repr, DecidableEq

/-- The content event (if any) a visited node produces on a kakuyomu
chapter-body page. -/
def kCEventOf (root : Node) (pe : List Nat × Node) : Option CEvent :=
  if pe.2.isElement then
    if selKContentLine root pe.1 && !selKBlankNeg root pe.1 then
      match lineWalk pe.2.children with
      | .ok cs => some (.line cs)
      | .error _ => some .panic
    else if selKBlank root pe.1 then some .blankL
    else none
  else none

/-- The content event (if any) a visited node produces on a syosetu
chapter-body page: a paragraph whose walk collects nothing produces no
event. -/
def sCEventOf (root : Node) (pe : List Nat × Node) : Option CEvent :=
  if pe.2.isElement then
    if selSLine root pe.1 then
      match lineWalk pe.2.children with
      | .ok cs => if cs.isEmpty then none else some (.line cs)
      | .error _ => some .panic
    else if selSBlank root pe.1 then some .blankL
    else none
  else none

/-- The document-order content event list of a kakuyomu chapter body. -/
def kCEvents (root : Node) : List CEvent :=
  (root.descWithPaths).filterMap (kCEventOf root)

/-- The document-order content event list of a syosetu chapter body. -/
def sCEvents (root : Node) : List CEvent :=
  (root.descWithPaths).filterMap (sCEventOf root)

/-- The effect of one content event on the line accumulator. -/
def cStep (s : Except Unit (List ContentLine)) (e : CEvent) :
    Except Unit (List ContentLine) :=
  match s, e with
  | .error u, _ => .error u
  | .ok ls, .line cs => .ok (ls ++ [.line cs])
  | .ok ls, .blankL => .ok (ls ++ [.blank])
  | .ok _, .panic => .error ()

/-- The line (if any) a content event contributes. -/
def evLine : CEvent → Option ContentLine
  | .line cs => some (.line cs)
  | .blankL => some .blank
  | .panic => none

/-- A syosetu chapter body whose only paragraph is empty. -/
def sEmptyRoot : Node :=
  .element "div" [("id", "novel_honbun")] [.element "p" [] []]

theorem natDecimalChars_digits (n : Nat) :
    ∀ c ∈ natDecimalChars n, ∃ d, d < 10 ∧ c = Char.ofNat (48 + d) := by
  induction n using Nat.strong_induction_on with
  | _ n ih =>
    rw [natDecimalChars]
    split
    · intro c hc
      simp only [List.mem_singleton] at hc
      exact ⟨n, by omega, hc⟩
    · intro c hc
      rw [List.mem_append] at hc
      rcases hc with h | h
      · exact ih (n / 10) (Nat.div_lt_self (by omega) (by omega)) c h
      · simp only [List.mem_singleton] at h
        exact ⟨n % 10, Nat.mod_lt _ (by omega), h⟩

theorem convertJaChar_digit (d : Nat) (hd : d < 10) :
    (convertJaChar (Char.ofNat (48 + d))).isSome := by
  interval_cases d <;> decide

theorem mapM_isSome {α β : Type} (f : α → Option β) :
    ∀ (l : List α), (∀ a ∈ l, (f a).isSome) → (l.mapM f).isSome := by
  intro l
  induction l with
  | nil => intro _; rfl
  | cons a rest ih =>
      intro h
      rw [List.mapM_cons]
      have ha := h a (List.mem_cons_self _ _)
      cases hfa : f a with
      | none => rw [hfa] at ha; simp at ha
      | some b =>
          have hrest := ih (fun x hx => h x (List.mem_cons_of_mem _ hx))
          cases hr : rest.mapM f with
          | none => rw [hr] at hrest; simp at hrest
          | some bs => simp [hfa, hr]



theorem convertJaChar_nonDigit (c : Char) (h : c.isDigit = false) : convertJaChar c = none := by
  unfold convertJaChar
  split_ifs
  all_goals first
  | rfl
  | (subst_vars; exact absurd h (by decide))

theorem rubyLoop_eq_scan :
    ∀ (kids : List Node) (m a : Option String) (acc : List Content),
      rubyLoop kids m a acc =
        (if (rubyScan kids m a acc).2.1.isSome || (rubyScan kids m a acc).2.2.isSome
         then .error () else .ok (rubyScan kids m a acc).1) := by
  intro kids
  induction kids with
  | nil => intro m a acc; rfl
  | cons c rest ih =>
      intro m a acc
      cases c with
      | text t => simp only [rubyLoop, rubyScan]; exact ih _ _ _
      | element nm at_ ch =>
          simp only [rubyLoop, rubyScan]
          split
          · exact ih _ _ _
          · exact ih _ _ _
      | other =>
          simp only [rubyLoop, rubyScan]
          split
          · exact ih _ _ _
          · exact ih _ _ _



theorem textContents_single (nm : String) (a : List (String × String)) (s : String) :
    (Node.element nm a [Node.text s]).textContents = s := by
  simp [Node.textContents, textContentsList]

theorem rubyLoop_pairs :
    ∀ (pairs : List (String × String)) (acc : List Content),
      rubyLoop ((pairs.map (fun pr => [rbN pr.1, rtN pr.2])).flatten) none none acc =
        .ok (acc ++ pairs.map (fun pr => Content.ruby pr.1 pr.2)) := by
  intro pairs
  induction pairs with
  | nil => intro acc; simp [rubyLoop]
  | cons pr rest ih =>
      intro acc
      simp only [List.map_cons, List.flatten_cons, List.cons_append]
      show rubyLoop (rbN pr.1 :: rtN pr.2 :: _) none none acc = _
      rw [show rbN pr.1 = Node.element "rb" [] [.text pr.1] from rfl,
          show rtN pr.2 = Node.element "rt" [] [.text pr.2] from rfl]
      simp only [rubyLoop]
      norm_num
      rw [textContents_single "rb" [] pr.1, textContents_single "rt" [] pr.2]
      simp [ih]


/-- C10: `novel.rs::convert_num_string_to_ja` panics (`none`) on every
non-digit character, but its only caller, `Chapter::make_xhtml`, feeds it the
decimal rendering of the chapter's `u32` order number, whose characters are
all ASCII digits — so rendering a chapter page never reaches the panic
branch. -/
theorem c10_order_num_conversion_safe :
    (∀ c : Char, c.isDigit = false → convertJaChar c = none) ∧
    (∀ ch : Chapter, (renderOrderNumJa ch).isSome) := by
  constructor
  · exact convertJaChar_nonDigit
  · intro ch
    unfold renderOrderNumJa convertNumStringToJa
    apply mapM_isSome
    intro c hc
    obtain ⟨d, hd, rfl⟩ := natDecimalChars_digits ch.order_num c hc
    exact convertJaChar_digit d hd

/-- Witness for C10 at a concrete non-digit character and a concrete
chapter. -/
theorem c10_order_num_conversion_safe_witness :
    convertJaChar 'x' = none ∧ (renderOrderNumJa ⟨"n", "d", 12, []⟩).isSome :=
  ⟨c10_order_num_conversion_safe.1 'x' (by decide),
   c10_order_num_conversion_safe.2 ⟨"n", "d", 12, []⟩⟩

/-- C9: a paragraph whose child walk collects no content spans is silently
dropped by the syosetu extractor (no `ContentLine` of any kind, no error),
while the kakuyomu extractor appends an empty `TextLine` for the same
shape. -/
theorem c9_empty_walk_paragraph (lines : List ContentLine) (el : Node)
    (h : lineWalk el.children = .ok []) :
    sGetLine (.ok lines) el = .ok lines ∧
    kGetContentLine (.ok lines) el = .ok (lines ++ [.line []]) := by
  constructor
  · simp [sGetLine, h, Except.map]
  · simp [kGetContentLine, h, Except.map]

/-- Witness for C9 at a paragraph whose only child is a non-text, non-ruby
element. -/
theorem c9_empty_walk_paragraph_witness :
    sGetLine (.ok []) (.element "p" [] [.element "span" [] []]) = .ok [] ∧
    kGetContentLine (.ok []) (.element "p" [] [.element "span" [] []]) = .ok [.line []] := by
  have h : lineWalk (Node.element "p" [] [.element "span" [] []]).children = .ok [] := rfl
  simpa using c9_empty_walk_paragraph [] _ h

/-- C2 counterexample: in `badRubyNode` the gloss is collected from an `rt`
child and the base is then collected from a plain text child, so *both* base
and gloss are collected (the scan's end state is `(some, some)`); the claim
predicts exactly one `AnnotatedSpan` and no error, but the extractor emits no
span at all and aborts, because the text arm's `continue` skips the emission
check. -/
theorem c2_annotation_counterexample :
    rubyScan badRubyNode.children none none [] = ([], some "基", some "ヨ") ∧
    getRuby badRubyNode = .error () ∧
    ∀ spans, getRuby badRubyNode ≠ .ok spans := by
  refine ⟨rfl, rfl, ?_⟩
  intro spans h
  rw [show getRuby badRubyNode = .error () from rfl] at h
  exact Except.noConfusion h

/-- C2 (amended): a pair completed right after an `rb`/`rt` element child is
emitted as exactly one `AnnotatedSpan` and the pair resets, so multiple pairs
per group are possible; and whenever at least one of {base, gloss} — in
particular exactly one — is still set after all children are visited, the
walk aborts with an error (a panic in the source) and no span list, partial
or complete, is produced. -/
theorem c2_annotation_pairs_amended :
    (∀ (pairs : List (String × String)),
      getRuby (.element "ruby" [] ((pairs.map (fun pr => [rbN pr.1, rtN pr.2])).flatten)) =
        .ok (pairs.map (fun pr => Content.ruby pr.1 pr.2))) ∧
    (∀ (kids : List Node) (acc' : List Content) (m' a' : Option String),
      rubyScan kids none none [] = (acc', m', a') → (m'.isSome || a'.isSome) = true →
      rubyLoop kids none none [] = .error ()) := by
  constructor
  · intro pairs
    show rubyLoop _ none none [] = _
    simpa using rubyLoop_pairs pairs []
  · intro kids acc' m' a' hscan hset
    rw [rubyLoop_eq_scan, hscan]
    exact if_pos hset

/-- Witness for C2 (amended): two pairs emit two spans; the `[rt, text]`
group's end state has a component set, so it aborts. -/
theorem c2_annotation_pairs_amended_witness :
    getRuby (.element "ruby" []
        ((([("a", "b"), ("c", "d")] : List (String × String)).map
          (fun pr => [rbN pr.1, rtN pr.2])).flatten)) =
      .ok [Content.ruby "a" "b", Content.ruby "c" "d"] ∧
    rubyLoop badRubyNode.children none none [] = .error () := by
  constructor
  · simpa using c2_annotation_pairs_amended.1 [("a", "b"), ("c", "d")]
  · exact c2_annotation_pairs_amended.2 badRubyNode.children [] (some "基") (some "ヨ") rfl rfl




mutual
theorem descList_atPath : ∀ (i : Nat) (ch : List Node) (pe : List Nat × Node),
    pe ∈ descWithPathsList i ch →
    ∃ j p' c, pe.1 = j :: p' ∧ i ≤ j ∧ ch.get? (j - i) = some c ∧ c.atPath p' = some pe.2
  | _, [], pe => by
      intro h
      exact absurd h (by simp [descWithPathsList])
  | i, c :: rest, pe => by
      intro h
      rw [descWithPathsList] at h
      rcases List.mem_cons.mp h with heq | h2
      · subst heq
        exact ⟨i, [], c, rfl, Nat.le_refl i, by simp, rfl⟩
      · rcases List.mem_append.mp h2 with hmap | hrest
        · obtain ⟨q, hq, hqe⟩ := List.mem_map.mp hmap
          have hres := node_atPath c q hq
          refine ⟨i, q.1, c, by rw [← hqe], Nat.le_refl i, by simp, ?_⟩
          rw [← hqe]
          exact hres
        · obtain ⟨j, p', c', h1, hij, h3, h4⟩ := descList_atPath (i + 1) rest pe hrest
          refine ⟨j, p', c', h1, by omega, ?_, h4⟩
          have hji : j - i = (j - (i + 1)) + 1 := by omega
          rw [hji, List.get?_cons_succ]
          exact h3

theorem node_atPath : ∀ (n : Node) (pe : List Nat × Node),
    pe ∈ n.descWithPaths → n.atPath pe.1 = some pe.2
  | .element nm a ch, pe => by
      intro h
      rw [Node.descWithPaths] at h
      obtain ⟨j, p', c, h1, _, h3, h4⟩ := descList_atPath 0 ch pe h
      rw [Nat.sub_zero] at h3
      rw [h1]
      show atPathAux (j :: p') _ = _
      rw [atPathAux]
      show (match (Node.element nm a ch).children.get? j with
            | some c => atPathAux p' c
            | none => none) = _
      rw [show (Node.element nm a ch).children = ch from rfl, h3]
      exact h4
  | .text _, pe => by
      intro h
      exact absurd h (by simp [Node.descWithPaths])
  | .other, pe => by
      intro h
      exact absurd h (by simp [Node.descWithPaths])
end



theorem descList_path_shape (i : Nat) (ch : List Node) (p : List Nat)
    (h : p ∈ (descWithPathsList i ch).map Prod.fst) :
    ∃ j p', p = j :: p' ∧ i ≤ j := by
  obtain ⟨pe, hpe, rfl⟩ := List.mem_map.mp h
  obtain ⟨j, p', c, h1, hij, _, _⟩ := descList_atPath i ch pe hpe
  exact ⟨j, p', h1, hij⟩

theorem node_path_shape (n : Node) (p : List Nat) (h : p ∈ n.descPaths) :
    ∃ j p', p = j :: p' := by
  cases n with
  | element nm a ch =>
      rw [Node.descPaths, Node.descWithPaths] at h
      obtain ⟨j, p', hp, _⟩ := descList_path_shape 0 ch p h
      exact ⟨j, p', hp⟩
  | text s => simp [Node.descPaths, Node.descWithPaths] at h
  | other => simp [Node.descPaths, Node.descWithPaths] at h

theorem descList_map_fst (i : Nat) (c : Node) (rest : List Node) :
    (descWithPathsList i (c :: rest)).map Prod.fst =
      [i] :: ((c.descPaths.map (fun q => i :: q)) ++ (descWithPathsList (i + 1) rest).map Prod.fst) := by
  rw [descWithPathsList]
  simp only [List.map_cons, List.map_append, List.map_map, Node.descPaths]
  rfl

mutual
theorem descList_nodup : ∀ (i : Nat) (ch : List Node),
    ((descWithPathsList i ch).map Prod.fst).Nodup
  | _, [] => by simp [descWithPathsList]
  | i, c :: rest => by
      rw [descList_map_fst, List.nodup_cons]
      constructor
      · intro hmem
        rcases List.mem_append.mp hmem with hA | hB
        · obtain ⟨q, hq, hqe⟩ := List.mem_map.mp hA
          obtain ⟨j, p', rfl⟩ := node_path_shape c q hq
          simp at hqe
        · obtain ⟨j, p', hp, hij⟩ := descList_path_shape (i + 1) _ _ hB
          injection hp with h1 h2
          omega
      · apply List.Nodup.append
        · exact (node_nodup c).map (fun a b hab => by simpa using hab)
        · exact descList_nodup (i + 1) rest
        · intro p hA hB
          obtain ⟨q, hq, rfl⟩ := List.mem_map.mp hA
          obtain ⟨j, p', hp, hij⟩ := descList_path_shape (i + 1) _ _ hB
          injection hp with h1 h2
          omega

theorem node_nodup : ∀ (n : Node), n.descPaths.Nodup
  | .element _ _ ch => by
      rw [Node.descPaths, Node.descWithPaths]
      exact descList_nodup 0 ch
  | .text _ => by simp [Node.descPaths, Node.descWithPaths]
  | .other => by simp [Node.descPaths, Node.descWithPaths]
end



mutual
theorem descList_sorted : ∀ (i : Nat) (ch : List Node),
    ((descWithPathsList i ch).map Prod.fst).Sorted (List.Lex (· < ·))
  | _, [] => by simp [descWithPathsList]
  | i, c :: rest => by
      rw [descList_map_fst, List.sorted_cons]
      constructor
      · intro b hb
        rcases List.mem_append.mp hb with hA | hB
        · obtain ⟨q, hq, rfl⟩ := List.mem_map.mp hA
          obtain ⟨j, p', rfl⟩ := node_path_shape c q hq
          exact List.Lex.cons List.Lex.nil
        · obtain ⟨j, p', hp, hij⟩ := descList_path_shape (i + 1) _ _ hB
          rw [hp]
          exact List.Lex.rel (by omega)
      · rw [List.Sorted, List.pairwise_append]
        refine ⟨?_, descList_sorted (i + 1) rest, ?_⟩
        · exact List.Pairwise.map _ (fun a b hab => List.Lex.cons hab) (node_sorted c)
        · intro a ha b hb
          obtain ⟨q, hq, rfl⟩ := List.mem_map.mp ha
          obtain ⟨j, p', hp, hij⟩ := descList_path_shape (i + 1) _ _ hb
          rw [hp]
          exact List.Lex.rel (by omega)

theorem node_sorted : ∀ (n : Node), n.descPaths.Sorted (List.Lex (· < ·))
  | .element _ _ ch => by
      rw [Node.descPaths, Node.descWithPaths]
      exact descList_sorted 0 ch
  | .text _ => by simp [Node.descPaths, Node.descWithPaths]
  | .other => by simp [Node.descPaths, Node.descWithPaths]
end

/-- C4: during traversal every strict descendant of the root is visited
exactly once, in document order, and a hook's callback is invoked on an
element iff its selector matches and its anti-selector (when given) does not.
The visit list `descWithPaths` is sound (each entry resolves to the visited
node via its path), duplicate-free, and sorted by the lexicographic path
order, which *is* document order; `traverse` folds over exactly this list,
evaluating every hook in registration order on each element; and
`match_element` fires precisely under `hookFires`. -/
theorem c4_traversal (root : Node) :
    (∀ pe ∈ root.descWithPaths, root.atPath pe.1 = some pe.2) ∧
    root.descPaths.Nodup ∧
    root.descPaths.Sorted (List.Lex (· < ·)) ∧
    (∀ (T : Type) (hooks : List (Hook T)) (init : T),
      traverse root hooks init =
        root.descWithPaths.foldl (fun d pe =>
          if pe.2.isElement then
            hooks.foldl (fun d h => h.matchElement root d pe.1 pe.2) d
          else d) init) ∧
    (∀ (T : Type) (h : Hook T) (d : T) (p : List Nat) (el : Node),
      h.matchElement root d p el =
        if hookFires root h p then h.callback d el else d) := by
  refine ⟨fun pe hpe => node_atPath root pe hpe, node_nodup root, node_sorted root,
    fun T hooks init => rfl, ?_⟩
  intro T h d p el
  cases hn : h.neg with
  | none => simp [Hook.matchElement, hookFires, hn]
  | some ns =>
      simp only [Hook.matchElement, hookFires, hn]
      by_cases hns : ns root p <;> by_cases hs : h.sel root p <;> simp [hns, hs]

/-- Witness for C4 at a one-child tree and its only descendant path. -/
theorem c4_traversal_witness :
    (Node.element "div" [] [.text "x"]).atPath [0] = some (.text "x") :=
  (c4_traversal (.element "div" [] [.text "x"])).1 ([0], .text "x") (List.Mem.head _)




theorem foldl_proj_filterMap {σ σ' τ ε : Type} (proj : σ → σ') (f : σ → τ → σ)
    (g : τ → Option ε) (estep : σ' → ε → σ')
    (hcomm : ∀ s t, proj (f s t) = (g t).elim (proj s) (estep (proj s))) :
    ∀ (l : List τ) (s : σ), proj (l.foldl f s) = (l.filterMap g).foldl estep (proj s) := by
  intro l
  induction l with
  | nil => intro s; simp
  | cons t rest ih =>
      intro s
      rw [List.foldl_cons, List.filterMap_cons, ih, hcomm]
      cases hg : g t with
      | none => simp
      | some e => simp

theorem toToc_move (dd : MainPageData) :
    (dd.moveChaptersToSection).sections = (tocFlush dd.toToc).sections ∧
    (dd.moveChaptersToSection).chapters = (tocFlush dd.toToc).chapters ∧
    (dd.moveChaptersToSection).chapter_count = (tocFlush dd.toToc).count ∧
    (dd.moveChaptersToSection).title = dd.title ∧
    (dd.moveChaptersToSection).author = dd.author ∧
    (dd.moveChaptersToSection).status = dd.status := by
  unfold MainPageData.moveChaptersToSection tocFlush MainPageData.toToc
  split_ifs <;> simp_all

theorem kGetChapter_extract (dd : MainPageData) (el : Node) :
    kGetChapter (.ok dd) el =
      (match chapExtract el with
       | some (n, dt, h) =>
           .ok { dd with
             chapters := dd.chapters ++ [⟨n, dt, (dd.chapter_count + 1) % U32, h⟩]
             chapter_count := (dd.chapter_count + 1) % U32 }
       | none => .error ()) := by
  unfold kGetChapter chapExtract MainPageData.incrementAndGetChapters
  cases el.selectFirst chapterNamePred <;>
    cases el.selectFirst chapterDatePred <;>
    cases el.attr "href" <;> rfl



theorem selKSection_tag (root : Node) (p : List Nat) (h : selKSection root p = true) :
    ∃ el, root.atPath p = some el ∧ el.tagName = "span" := by
  unfold selKSection at h
  cases hA : root.atPath p with
  | none => rw [hA] at h; simp at h
  | some el =>
      cases hP : selParent root p with
      | none => rw [hA, hP] at h; simp at h
      | some par =>
          rw [hA, hP] at h
          simp only [Bool.and_eq_true, beq_iff_eq] at h
          exact ⟨el, rfl, h.1.1⟩

theorem selKChapter_tag (root : Node) (p : List Nat) (h : selKChapter root p = true) :
    ∃ el, root.atPath p = some el ∧ el.tagName = "a" := by
  unfold selKChapter at h
  cases hA : root.atPath p with
  | none => rw [hA] at h; simp at h
  | some el =>
      cases hP : selParent root p with
      | none => rw [hA, hP] at h; simp at h
      | some par =>
          rw [hA, hP] at h
          simp only [Bool.and_eq_true, beq_iff_eq] at h
          exact ⟨el, rfl, h.1.1⟩

theorem selKStatus_tag (root : Node) (p : List Nat) (h : selKStatus root p = true) :
    ∃ el, root.atPath p = some el ∧ el.tagName = "dd" := by
  unfold selKStatus at h
  cases hA : root.atPath p with
  | none => rw [hA] at h; simp at h
  | some el =>
      cases hP : selParent root p with
      | none => rw [hA, hP] at h; simp at h
      | some par =>
          cases hG : selGrandparent root p with
          | none => rw [hA, hP, hG] at h; simp at h
          | some gp =>
              rw [hA, hP, hG] at h
              simp only [Bool.and_eq_true, beq_iff_eq] at h
              exact ⟨el, rfl, h.1.1.1.1⟩

theorem selKSection_not_chapter (root : Node) (p : List Nat)
    (h : selKSection root p = true) : selKChapter root p = false := by
  obtain ⟨el, hA, htag⟩ := selKSection_tag root p h
  unfold selKChapter
  rw [hA]
  cases hP : selParent root p
  · rfl
  · simp [htag]

theorem selKStatus_not_chapter (root : Node) (p : List Nat)
    (h : selKStatus root p = true) : selKChapter root p = false := by
  obtain ⟨el, hA, htag⟩ := selKStatus_tag root p h
  unfold selKChapter
  rw [hA]
  cases hP : selParent root p
  · rfl
  · simp [htag]

theorem selKStatus_not_section (root : Node) (p : List Nat)
    (h : selKStatus root p = true) : selKSection root p = false := by
  obtain ⟨el, hA, htag⟩ := selKStatus_tag root p h
  unfold selKSection
  rw [hA]
  cases hP : selParent root p
  · rfl
  · simp [htag]



theorem tocProj_title (d : Except Unit MainPageData) (el : Node) :
    tocProj (kGetTitle d el) = tocProj d := by
  cases d <;> simp [kGetTitle, tocProj, Except.map, MainPageData.toToc]

theorem tocProj_author (d : Except Unit MainPageData) (el : Node) :
    tocProj (kGetAuthor d el) = tocProj d := by
  cases d <;> simp [kGetAuthor, tocProj, Except.map, MainPageData.toToc]

theorem tocProj_status (d : Except Unit MainPageData) (el : Node) :
    tocProj (kGetStatus d el) = tocProj d := by
  cases d with
  | error u => rfl
  | ok dd =>
      unfold kGetStatus
      simp only [Except.map]
      split_ifs <;> rfl

theorem tocProj_section (d : Except Unit MainPageData) (el : Node) :
    tocProj (kGetSection d el) = tocStep (tocProj d) (.sec el.textContents) := by
  cases d with
  | error u => rfl
  | ok dd =>
      unfold kGetSection
      simp only [Except.map]
      show tocProj (.ok _) = _
      simp only [tocProj, tocStep, tocStepA, MainPageData.toToc,
        MainPageData.moveChaptersToSection, tocFlush]
      split_ifs <;> rfl

/-- The toc event `get_chapter` amounts to. -/
theorem tocProj_chapter (d : Except Unit MainPageData) (el : Node) :
    tocProj (kGetChapter d el) =
      tocStep (tocProj d)
        (match chapExtract el with
         | some (n, dt, h) => .chap n dt h
         | none => .panic) := by
  cases d with
  | error u => cases hce : chapExtract el with
      | none => rfl
      | some v => rcases v with ⟨n, dt, h⟩; rfl
  | ok dd =>
      rw [kGetChapter_extract]
      cases hce : chapExtract el with
      | none => rfl
      | some v =>
          rcases v with ⟨n, dt, h⟩
          simp only [tocProj, tocStep, tocStepA, MainPageData.toToc]

theorem tocProj_if_title (c : Prop) [Decidable c] (X : Except Unit MainPageData) (el : Node) :
    tocProj (if c then kGetTitle X el else X) = tocProj X := by
  split_ifs with h
  · exact tocProj_title X el
  · rfl

theorem tocProj_if_author (c : Prop) [Decidable c] (X : Except Unit MainPageData) (el : Node) :
    tocProj (if c then kGetAuthor X el else X) = tocProj X := by
  split_ifs with h
  · exact tocProj_author X el
  · rfl

theorem tocProj_if_status (c : Prop) [Decidable c] (X : Except Unit MainPageData) (el : Node) :
    tocProj (if c then kGetStatus X el else X) = tocProj X := by
  split_ifs with h
  · exact tocProj_status X el
  · rfl

theorem toc_step_comm (root : Node) (pe : List Nat × Node) (d : Except Unit MainPageData) :
    tocProj (traverseStep root kakuyomuHookList d pe) =
      (tocEventOf root pe).elim (tocProj d) (tocStep (tocProj d)) := by
  by_cases hel : pe.2.isElement
  case neg => simp [traverseStep, tocEventOf, hel]
  case pos =>
  simp only [traverseStep, hel, if_true]
  show tocProj
      (if selKChapter root pe.1 then
        kGetChapter
          (if selKSection root pe.1 then
            kGetSection
              (if selKStatus root pe.1 then
                kGetStatus
                  (if selKAuthor root pe.1 then
                    kGetAuthor (if selKTitle root pe.1 then kGetTitle d pe.2 else d) pe.2
                  else (if selKTitle root pe.1 then kGetTitle d pe.2 else d)) pe.2
              else
                (if selKAuthor root pe.1 then
                  kGetAuthor (if selKTitle root pe.1 then kGetTitle d pe.2 else d) pe.2
                else (if selKTitle root pe.1 then kGetTitle d pe.2 else d))) pe.2
          else
            (if selKStatus root pe.1 then
              kGetStatus
                (if selKAuthor root pe.1 then
                  kGetAuthor (if selKTitle root pe.1 then kGetTitle d pe.2 else d) pe.2
                else (if selKTitle root pe.1 then kGetTitle d pe.2 else d)) pe.2
            else
              (if selKAuthor root pe.1 then
                kGetAuthor (if selKTitle root pe.1 then kGetTitle d pe.2 else d) pe.2
              else (if selKTitle root pe.1 then kGetTitle d pe.2 else d)))) pe.2
      else
        (if selKSection root pe.1 then
          kGetSection
            (if selKStatus root pe.1 then
              kGetStatus
                (if selKAuthor root pe.1 then
                  kGetAuthor (if selKTitle root pe.1 then kGetTitle d pe.2 else d) pe.2
                else (if selKTitle root pe.1 then kGetTitle d pe.2 else d)) pe.2
            else
              (if selKAuthor root pe.1 then
                kGetAuthor (if selKTitle root pe.1 then kGetTitle d pe.2 else d) pe.2
              else (if selKTitle root pe.1 then kGetTitle d pe.2 else d))) pe.2
        else
          (if selKStatus root pe.1 then
            kGetStatus
              (if selKAuthor root pe.1 then
                kGetAuthor (if selKTitle root pe.1 then kGetTitle d pe.2 else d) pe.2
              else (if selKTitle root pe.1 then kGetTitle d pe.2 else d)) pe.2
          else
            (if selKAuthor root pe.1 then
              kGetAuthor (if selKTitle root pe.1 then kGetTitle d pe.2 else d) pe.2
            else (if selKTitle root pe.1 then kGetTitle d pe.2 else d))))) =
      (tocEventOf root pe).elim (tocProj d) (tocStep (tocProj d))
  by_cases hSec : selKSection root pe.1
  · have hCh : selKChapter root pe.1 = false := selKSection_not_chapter root pe.1 hSec
    rw [if_neg (by simp [hCh]), if_pos hSec, tocProj_section, tocProj_if_status,
      tocProj_if_author, tocProj_if_title]
    rw [show tocEventOf root pe = some (.sec pe.2.textContents) from by
      unfold tocEventOf; rw [if_pos hel, if_pos hSec]]
    rfl
  · by_cases hCh : selKChapter root pe.1
    · rw [if_pos hCh, if_neg hSec, tocProj_chapter, tocProj_if_status,
        tocProj_if_author, tocProj_if_title]
      rw [show tocEventOf root pe =
          some (match chapExtract pe.2 with
                | some (n, dt, h) => TocEvent.chap n dt h
                | none => TocEvent.panic) from by
        unfold tocEventOf
        rw [if_pos hel, if_neg (by simp [hSec]), if_pos hCh]
        rcases chapExtract pe.2 with _ | ⟨n, dt, hh⟩ <;> rfl]
      rfl
    · rw [if_neg hCh, if_neg hSec, tocProj_if_status, tocProj_if_author, tocProj_if_title]
      rw [show tocEventOf root pe = none from by
        unfold tocEventOf
        rw [if_pos hel, if_neg (by simp [hSec]), if_neg (by simp [hCh])]]
      rfl

theorem kakuyomuMainScan_toc (root : Node) :
    tocProj (kakuyomuMainScan root) = runToc (tocEvents root) (.ok ⟨[], [], 0⟩) := by
  unfold kakuyomuMainScan traverse runToc tocEvents
  rw [foldl_proj_filterMap tocProj (traverseStep root kakuyomuHookList)
    (tocEventOf root) tocStep (fun s t => toc_step_comm root t s)]
  rfl

theorem runToc_error (evs : List TocEvent) (u : Unit) :
    runToc evs (.error u) = .error u := by
  induction evs with
  | nil => rfl
  | cons e rest ih => rw [runToc, List.foldl_cons]; exact ih

theorem runToc_eq_ok (evs : List TocEvent) (hnp : TocEvent.panic ∉ evs) :
    ∀ s : TocAcc, runToc evs (.ok s) = .ok (runTocAcc evs s) := by
  induction evs with
  | nil => intro s; rfl
  | cons e rest ih =>
      intro s
      have hne : e ≠ .panic := fun h => hnp (h ▸ List.mem_cons_self e rest)
      have hrest : TocEvent.panic ∉ rest := fun h => hnp (List.mem_cons_of_mem _ h)
      rw [runToc, List.foldl_cons, runTocAcc, List.foldl_cons]
      cases e with
      | panic => exact absurd rfl hne
      | sec nm => exact ih hrest _
      | chap n dt h => exact ih hrest _

theorem runToc_ok_no_panic (evs : List TocEvent) (s : TocAcc) (s' : TocAcc)
    (h : runToc evs (.ok s) = .ok s') : TocEvent.panic ∉ evs := by
  induction evs generalizing s with
  | nil => simp
  | cons e rest ih =>
      rw [runToc, List.foldl_cons] at h
      cases e with
      | panic =>
          rw [show tocStep (.ok s) .panic = .error () from rfl, ← runToc] at h
          rw [runToc_error] at h
          exact absurd h (by simp)
      | sec nm =>
          intro hmem
          rcases List.mem_cons.mp hmem with h1 | h2
          · exact TocEvent.noConfusion h1
          · exact ih _ h h2
      | chap n dt hh =>
          intro hmem
          rcases List.mem_cons.mp hmem with h1 | h2
          · exact TocEvent.noConfusion h1
          · exact ih _ h h2



theorem flatten_updateLast (cs : List ChapterInfo) :
    ∀ (l : List SectionInfo), l ≠ [] →
      ((updateLast (fun s => { s with chapters := s.chapters ++ cs }) l).map
          SectionInfo.chapters).flatten =
        (l.map SectionInfo.chapters).flatten ++ cs := by
  intro l
  induction l with
  | nil => intro h; exact absurd rfl h
  | cons x rest ih =>
      intro _
      cases rest with
      | nil => simp [updateLast]
      | cons y rest2 =>
          rw [show updateLast (fun s => { s with chapters := s.chapters ++ cs }) (x :: y :: rest2)
              = x :: updateLast (fun s => { s with chapters := s.chapters ++ cs }) (y :: rest2)
            from rfl]
          simp only [List.map_cons, List.flatten_cons]
          rw [ih (by simp)]
          simp [List.append_assoc]

theorem flatChapters_flush (s : TocAcc) : flatChapters (tocFlush s) = flatChapters s := by
  unfold tocFlush flatChapters
  split_ifs with h
  · rfl
  · simp only
    rw [flatten_updateLast s.chapters s.sections (by simpa using h)]
    simp

theorem tocFlush_count (s : TocAcc) : (tocFlush s).count = s.count := by
  unfold tocFlush
  split_ifs <;> rfl

theorem runTocAcc_flat (evs : List TocEvent) :
    ∀ s : TocAcc,
      flatChapters (runTocAcc evs s) = flatChapters s ++ numberFrom s.count (payloads evs) ∧
      (runTocAcc evs s).count = countFrom s.count (payloads evs) := by
  induction evs with
  | nil => intro s; simp [runTocAcc, payloads, numberFrom, countFrom]
  | cons e rest ih =>
      intro s
      rw [runTocAcc, List.foldl_cons, ← runTocAcc]
      cases e with
      | panic =>
          rw [show tocStepA s .panic = s from rfl]
          simpa [payloads] using ih s
      | sec nm =>
          have hstep : flatChapters (tocStepA s (.sec nm)) = flatChapters s := by
            rw [show tocStepA s (.sec nm)
                = ⟨(tocFlush s).sections ++ [⟨nm, []⟩], (tocFlush s).chapters, s.count⟩ from rfl]
            rw [show flatChapters ⟨(tocFlush s).sections ++ [⟨nm, []⟩], (tocFlush s).chapters, s.count⟩
                = ((tocFlush s).sections.map SectionInfo.chapters).flatten ++ [] ++ (tocFlush s).chapters by
              simp [flatChapters]]
            simp
            exact flatChapters_flush s
          have hcnt : (tocStepA s (.sec nm)).count = s.count := rfl
          obtain ⟨h1, h2⟩ := ih (tocStepA s (.sec nm))
          rw [h1, h2, hstep, hcnt]
          simp [payloads]
      | chap n dt hh =>
          have hstep : flatChapters (tocStepA s (.chap n dt hh)) =
              flatChapters s ++ [⟨n, dt, (s.count + 1) % U32, hh⟩] := by
            simp [tocStepA, flatChapters]
          have hcnt : (tocStepA s (.chap n dt hh)).count = (s.count + 1) % U32 := rfl
          obtain ⟨h1, h2⟩ := ih (tocStepA s (.chap n dt hh))
          rw [h1, h2, hstep, hcnt]
          simp [payloads, numberFrom, countFrom, List.append_assoc]



theorem updateLast_map {α β : Type} (f : α → α) (f' : β → β) (g : α → β)
    (hfg : ∀ x, g (f x) = f' (g x)) :
    ∀ l : List α, (updateLast f l).map g = updateLast f' (l.map g) := by
  intro l
  induction l with
  | nil => rfl
  | cons x rest ih =>
      cases rest with
      | nil => simp [updateLast, hfg]
      | cons y rest2 =>
          rw [show updateLast f (x :: y :: rest2) = x :: updateLast f (y :: rest2) from rfl,
            List.map_cons, ih, List.map_cons]
          rfl

theorem flushP_sections (s : TocAcc) :
    (tocFlush s).sections.map secPayload =
      (flushSpecP (s.sections.map secPayload) (s.chapters.map chPayload)).1 := by
  obtain ⟨secs, pend, cnt⟩ := s
  cases secs with
  | nil => rfl
  | cons x xs =>
      show (tocFlush ⟨x :: xs, pend, cnt⟩).sections.map secPayload = _
      unfold tocFlush flushSpecP
      simp only [List.isEmpty_cons, if_false, List.map_cons, Bool.false_eq_true]
      rw [updateLast_map (fun sec => { sec with chapters := sec.chapters ++ pend })
        (fun g => (g.1, g.2 ++ pend.map chPayload)) secPayload
        (fun z => by simp [secPayload]) (x :: xs)]
      rfl

theorem flushP_chapters (s : TocAcc) :
    (tocFlush s).chapters.map chPayload =
      (flushSpecP (s.sections.map secPayload) (s.chapters.map chPayload)).2 := by
  obtain ⟨secs, pend, cnt⟩ := s
  cases secs with
  | nil => rfl
  | cons x xs => rfl

theorem runTocAcc_groups (evs : List TocEvent) :
    ∀ s : TocAcc,
      (tocFlush (runTocAcc evs s)).sections.map secPayload =
        (specGroups (s.sections.map secPayload)
          (s.chapters.map chPayload ++ (parseToc evs).1) (parseToc evs).2).1 ∧
      (tocFlush (runTocAcc evs s)).chapters.map chPayload =
        (specGroups (s.sections.map secPayload)
          (s.chapters.map chPayload ++ (parseToc evs).1) (parseToc evs).2).2 := by
  induction evs with
  | nil =>
      intro s
      rw [show runTocAcc [] s = s from rfl, parseToc]
      simp only [List.append_nil, specGroups]
      exact ⟨flushP_sections s, flushP_chapters s⟩
  | cons e rest ih =>
      intro s
      rw [runTocAcc, List.foldl_cons, ← runTocAcc]
      cases e with
      | panic =>
          rw [show tocStepA s .panic = s from rfl, parseToc]
          exact ih s
      | chap n dt hh =>
          obtain ⟨ih1, ih2⟩ := ih (tocStepA s (.chap n dt hh))
          rw [show (parseToc (.chap n dt hh :: rest)).1 = (n, dt, hh) :: (parseToc rest).1
              from rfl,
            show (parseToc (.chap n dt hh :: rest)).2 = (parseToc rest).2 from rfl]
          rw [ih1, ih2]
          rw [show (tocStepA s (.chap n dt hh)).sections = s.sections from rfl,
            show (tocStepA s (.chap n dt hh)).chapters
              = s.chapters ++ [⟨n, dt, (s.count + 1) % U32, hh⟩] from rfl]
          rw [List.map_append]
          rw [show List.map chPayload [(⟨n, dt, (s.count + 1) % U32, hh⟩ : ChapterInfo)]
              = [(n, dt, hh)] from rfl]
          rw [List.append_assoc]
          exact ⟨rfl, rfl⟩
      | sec nm =>
          obtain ⟨ih1, ih2⟩ := ih (tocStepA s (.sec nm))
          rw [show (parseToc (.sec nm :: rest)).1 = [] from rfl,
            show (parseToc (.sec nm :: rest)).2 = (nm, (parseToc rest).1) :: (parseToc rest).2
              from rfl]
          rw [ih1, ih2]
          have hsecs : (tocStepA s (.sec nm)).sections.map secPayload =
              (flushSpecP (s.sections.map secPayload) (s.chapters.map chPayload)).1
                ++ [(nm, [])] := by
            rw [show (tocStepA s (.sec nm)).sections = (tocFlush s).sections ++ [⟨nm, []⟩]
                from rfl]
            rw [List.map_append, flushP_sections s]
            rfl
          have hpend : (tocStepA s (.sec nm)).chapters.map chPayload =
              (flushSpecP (s.sections.map secPayload) (s.chapters.map chPayload)).2 := by
            rw [show (tocStepA s (.sec nm)).chapters = (tocFlush s).chapters from rfl,
              flushP_chapters s]
          rw [hsecs, hpend]
          rw [show specGroups (s.sections.map secPayload)
                (s.chapters.map chPayload ++ []) ((nm, (parseToc rest).1) :: (parseToc rest).2)
              = specGroups
                  ((flushSpecP (s.sections.map secPayload) (s.chapters.map chPayload ++ [])).1
                    ++ [(nm, [])])
                  ((flushSpecP (s.sections.map secPayload) (s.chapters.map chPayload ++ [])).2
                    ++ (parseToc rest).1)
                  (parseToc rest).2 from rfl]
          simp



theorem updateLast_append_singleton {α : Type} (f : α → α) (y : α) :
    ∀ xs : List α, updateLast f (xs ++ [y]) = xs ++ [f y] := by
  intro xs
  induction xs with
  | nil => rfl
  | cons x rest ih =>
      cases rest with
      | nil => rfl
      | cons z rest2 =>
          show x :: updateLast f ((z :: rest2) ++ [y]) = x :: ((z :: rest2) ++ [f y])
          rw [ih]

theorem specGroups_closed (gs : List (String × List Payload)) :
    ∀ (secs : List (String × List Payload)) (pend : List Payload), secs ≠ [] →
      specGroups secs pend gs =
        (updateLast (fun g => (g.1, g.2 ++ pend)) secs ++ gs, []) := by
  induction gs with
  | nil =>
      intro secs pend hne
      unfold specGroups flushSpecP
      rw [if_neg (by simpa using hne)]
      simp
  | cons g more ih =>
      intro secs pend hne
      obtain ⟨nm, ps⟩ := g
      show specGroups _ _ ((nm, ps) :: more) = _
      unfold specGroups
      rw [show flushSpecP secs pend = (updateLast (fun g => (g.1, g.2 ++ pend)) secs, [])
          from by unfold flushSpecP; rw [if_neg (by simpa using hne)]]
      rw [ih (updateLast (fun g => (g.1, g.2 ++ pend)) secs ++ [(nm, [])]) ([] ++ ps)
        (by simp)]
      rw [updateLast_append_singleton]
      simp

theorem toToc_move_eq (dd : MainPageData) :
    (dd.moveChaptersToSection).toToc = tocFlush dd.toToc := by
  unfold MainPageData.moveChaptersToSection tocFlush MainPageData.toToc
  split_ifs <;> rfl

/-- C1 (amended): for every table-of-contents page whose traversal succeeds,
the assembled sections partition all extracted chapters with no loss and no
duplication, in document order with gap-free sequential numbering; each
chapter encountered after the first section heading belongs to the section
whose heading most nearly precedes it; chapters encountered before any
section heading are appended to the *first* section when at least one section
exists (they stay in the pending top-level list only until the second heading
or, failing that, the final flush); and when no sections exist the pending
chapters are surfaced directly as the flat chapter list. -/
theorem c1_section_association (root : Node) (d : MainPageData)
    (h : kakuyomuMainScan root = .ok d) :
    flatChapters (d.moveChaptersToSection).toToc =
      numberFrom 0 (payloads (tocEvents root)) ∧
    (match parseToc (tocEvents root) with
     | (lead, []) =>
         (d.moveChaptersToSection).sections = [] ∧
         (d.moveChaptersToSection).chapters.map chPayload = lead
     | (lead, (n1, ps1) :: more) =>
         (d.moveChaptersToSection).chapters = [] ∧
         (d.moveChaptersToSection).sections.map secPayload = (n1, lead ++ ps1) :: more) := by
  have hproj : tocProj (kakuyomuMainScan root) = .ok d.toToc := by
    rw [h]; rfl
  rw [kakuyomuMainScan_toc] at hproj
  have hnp : TocEvent.panic ∉ tocEvents root :=
    runToc_ok_no_panic (tocEvents root) ⟨[], [], 0⟩ d.toToc hproj
  rw [runToc_eq_ok (tocEvents root) hnp ⟨[], [], 0⟩] at hproj
  have hacc : d.toToc = runTocAcc (tocEvents root) ⟨[], [], 0⟩ := by
    injection hproj with h'
    exact h'.symm
  constructor
  · rw [toToc_move_eq, hacc, flatChapters_flush]
    have := (runTocAcc_flat (tocEvents root) ⟨[], [], 0⟩).1
    rw [this]
    rfl
  · obtain ⟨hg1, hg2⟩ := runTocAcc_groups (tocEvents root) ⟨[], [], 0⟩
    rw [← hacc, ← toToc_move_eq] at hg1 hg2
    simp only [List.map_nil, List.nil_append] at hg1 hg2
    rcases hpt : parseToc (tocEvents root) with ⟨lead, gs⟩
    rw [hpt] at hg1 hg2
    cases gs with
    | nil =>
        simp only [specGroups, flushSpecP, List.isEmpty_nil, if_true] at hg1 hg2
        refine ⟨?_, ?_⟩
        · exact List.map_eq_nil_iff.mp hg1
        · exact hg2
    | cons g more =>
        obtain ⟨n1, ps1⟩ := g
        rw [show specGroups [] lead ((n1, ps1) :: more)
            = specGroups ((flushSpecP [] lead).1 ++ [(n1, [])]) ((flushSpecP [] lead).2 ++ ps1)
              more from rfl] at hg1 hg2
        rw [show flushSpecP [] lead = ([], lead) from rfl] at hg1 hg2
        rw [specGroups_closed more ([] ++ [(n1, [])]) (lead ++ ps1) (by simp)] at hg1 hg2
        simp only [List.nil_append, updateLast] at hg1 hg2
        refine ⟨?_, ?_⟩
        · exact List.map_eq_nil_iff.mp hg2
        · exact hg1




/-- Witness for C1 at the page `tocRoot0` (one chapter before the first
heading, two headings): the hypotheses are discharged by computation and the
partition/association conclusions instantiate to concrete lists. -/
theorem c1_section_association_witness :
    flatChapters (d0Toc.moveChaptersToSection).toToc =
      numberFrom 0 (payloads (tocEvents tocRoot0)) ∧
    (d0Toc.moveChaptersToSection).chapters = [] ∧
    (d0Toc.moveChaptersToSection).sections.map secPayload =
      [("A", [("c0", "x", "/e0"), ("c1", "y", "/e1")]), ("B", [("c2", "z", "/e2")])] := by
  have h := c1_section_association tocRoot0 d0Toc rfl
  exact ⟨h.1, h.2.1, h.2.2⟩

/-- C1 counterexample: on `tocRoot0` the chapter entry `c0` precedes every
section heading.  The claim says such chapters remain top-level until end of
traversal and are then appended to the *last* section ("B").  The code moves
them into the *first* section ("A") as soon as the second heading arrives:
the final sections are A = [c0, c1], B = [c2], and the last section does not
contain c0. -/
theorem c1_section_association_counterexample :
    kakuyomuMainScan tocRoot0 = .ok d0Toc ∧
    (d0Toc.moveChaptersToSection).sections.map secPayload =
      [("A", [("c0", "x", "/e0"), ("c1", "y", "/e1")]), ("B", [("c2", "z", "/e2")])] ∧
    ((d0Toc.moveChaptersToSection).sections.getLast?).map secPayload =
      some ("B", [("c2", "z", "/e2")]) ∧
    (("c0", "x", "/e0") : Payload) ∉ [(("c2", "z", "/e2") : Payload)] := by
  refine ⟨rfl, rfl, rfl, by decide⟩




theorem exceptBind_ok {ε α β : Type} (a : α) (f : α → Except ε β) :
    (Except.ok a >>= f : Except ε β) = f a := rfl

theorem exceptBind_error {ε α β : Type} (e : ε) (f : α → Except ε β) :
    ((Except.error e : Except ε α) >>= f) = .error e := rfl

theorem kakuyomuMainHooks_cases (w : World) :
    kakuyomuMainHooks w = .ok kakuyomuHookList ∨
    ∃ s, kakuyomuMainHooks w = .error (.cssSelectorCompilation s) := by
  unfold kakuyomuMainHooks addHook
  by_cases h1 : w.compiles "#workTitle > a"
  case neg => right; exact ⟨"#workTitle > a", by simp [h1, exceptBind_error]⟩
  by_cases h2 : w.compiles "#workAuthor-activityName > a"
  case neg =>
    right
    exact ⟨"#workAuthor-activityName > a", by simp [h1, h2, exceptBind_ok, exceptBind_error]⟩
  by_cases h3 : w.compiles "div#workInformationList > dl > dd:nth-child(2)"
  case neg =>
    right
    exact ⟨"div#workInformationList > dl > dd:nth-child(2)",
      by simp [h1, h2, h3, exceptBind_ok, exceptBind_error]⟩
  by_cases h4 : w.compiles "li.widget-toc-chapter > span"
  case neg =>
    right
    exact ⟨"li.widget-toc-chapter > span",
      by simp [h1, h2, h3, h4, exceptBind_ok, exceptBind_error]⟩
  by_cases h5 : w.compiles "li.widget-toc-episode > a"
  case neg =>
    right
    exact ⟨"li.widget-toc-episode > a",
      by simp [h1, h2, h3, h4, h5, exceptBind_ok, exceptBind_error]⟩
  left
  simp [h1, h2, h3, h4, h5, exceptBind_ok, kakuyomuHookList]

theorem collectExcept_map_ok {ε α β γ : Type} (f : β → Except ε α) (g : α → γ) (g' : β → γ)
    (hfg : ∀ b a, f b = .ok a → g a = g' b) :
    ∀ (l : List β) (res : List α), collectExcept (l.map f) = .ok res → res.map g = l.map g' := by
  intro l
  induction l with
  | nil =>
      intro res h
      simp only [List.map_nil, collectExcept] at h
      injection h with h'
      rw [← h']
      rfl
  | cons b rest ih =>
      intro res h
      rw [List.map_cons] at h
      cases hfb : f b with
      | error e =>
          rw [hfb] at h
          exact absurd h (by simp [collectExcept])
      | ok a =>
          rw [hfb] at h
          rw [show collectExcept (Except.ok a :: rest.map f)
              = (collectExcept (rest.map f)).map (fun l => a :: l) from rfl] at h
          cases hr : collectExcept (rest.map f) with
          | error e => rw [hr] at h; exact absurd h (by simp [Except.map])
          | ok res' =>
              rw [hr] at h
              simp only [Except.map] at h
              injection h with h'
              rw [← h', List.map_cons, List.map_cons, hfg b a hfb, ih res' hr]

theorem kFetchChapter_order (w : World) (ci : ChapterInfo) (ch : Chapter)
    (h : (kFetchChapter w ci).1 = .ok ch) : ch.order_num = ci.order_num := by
  unfold kFetchChapter at h
  rcases hp : fetchNovelContent w (kakuyomuChapterUri ci) with ⟨r, tr⟩
  rw [hp] at h
  cases r with
  | error e => exact absurd h (by simp [Except.map])
  | ok content =>
      simp only [Except.map] at h
      injection h with h'
      rw [← h']

theorem kFetchChapters_orders (w : World) (cis : List ChapterInfo) (chs : List Chapter)
    (h : (kFetchChapters w cis).1 = .ok chs) :
    chs.map Chapter.order_num = cis.map ChapterInfo.order_num := by
  unfold kFetchChapters at h
  simp only [List.map_map] at h
  exact collectExcept_map_ok (Prod.fst ∘ kFetchChapter w) Chapter.order_num
    ChapterInfo.order_num (fun b a hba => kFetchChapter_order w b a hba) cis chs h

theorem kFetchSection_orders (w : World) (si : SectionInfo) (sec : Section)
    (h : (kFetchSection w si).1 = .ok sec) :
    sec.chapters.map Chapter.order_num = si.chapters.map ChapterInfo.order_num := by
  unfold kFetchSection at h
  rcases hp : kFetchChapters w si.chapters with ⟨r, tr⟩
  rw [hp] at h
  cases r with
  | error e => exact absurd h (by simp [Except.map])
  | ok chs =>
      simp only [Except.map] at h
      injection h with h'
      rw [← h']
      exact kFetchChapters_orders w si.chapters chs (by rw [hp])

theorem kFetchSections_orders (w : World) (sis : List SectionInfo) (ss : List Section)
    (h : (kFetchSections w sis).1 = .ok ss) :
    ss.map (fun s => s.chapters.map Chapter.order_num) =
      sis.map (fun si => si.chapters.map ChapterInfo.order_num) := by
  unfold kFetchSections at h
  simp only [List.map_map] at h
  exact collectExcept_map_ok (Prod.fst ∘ kFetchSection w)
    (fun s => s.chapters.map Chapter.order_num)
    (fun si => si.chapters.map ChapterInfo.order_num)
    (fun b a hba => kFetchSection_orders w b a hba) sis ss h

theorem numberFrom_orderNums (ps : List Payload) :
    ∀ c, c + ps.length < U32 →
      (numberFrom c ps).map ChapterInfo.order_num = List.range' (c + 1) ps.length := by
  induction ps with
  | nil => intro c _; simp [numberFrom]
  | cons p rest ih =>
      intro c hc
      have hlen : rest.length + 1 = (p :: rest).length := by simp
      have hm : (c + 1) % U32 = c + 1 := by
        apply Nat.mod_eq_of_lt
        simp only [List.length_cons] at hc
        omega
      rw [numberFrom, hm, List.map_cons, ih (c + 1) (by simp only [List.length_cons] at hc; omega)]
      rw [List.length_cons, List.range'_succ]



/-- C3: for every successfully assembled kakuyomu work, the chapter order
numbers — flattened over sections in stored order, or over the flat chapter
list — form the strictly increasing, gap-free sequence `1, 2, …, N` assigned
in table-of-contents document order (`N` below `2^32`, the width of the
source's `u32` counter).  The content fetches (`fetch_chapters` /
`fetch_sections`) are order-preserving collects, so completion order cannot
permute them. -/
theorem c3_order_numbers (w : World) (uri : String) (novel : Novel)
    (hok : (makeKakuyomuNovel w uri).1 = .ok novel)
    (hbound : (payloads (tocEvents (w.page uri))).length < U32) :
    novelOrderNums novel =
      List.range' 1 (payloads (tocEvents (w.page uri))).length := by
  unfold makeKakuyomuNovel at hok
  simp only [] at hok
  split at hok
  next e heq => exact absurd hok (by simp)
  next hooks heq =>
  split at hok
  next u heq2 => exact absurd hok (by simp)
  next d heq2 =>
  have hhl : hooks = kakuyomuHookList := by
    rcases kakuyomuMainHooks_cases w with hh | ⟨s, hh⟩
    · exact Except.ok.inj (heq.symm.trans hh)
    · rw [heq] at hh; exact absurd hh (by simp)
  subst hhl
  rcases hasm : kakuyomuAssemble w uri d with ⟨r, tr2⟩
  rw [hasm] at hok
  simp only at hok
  -- hok : r = .ok novel
  have hc1 := c1_section_association (w.page uri) d heq2
  have hflat := hc1.1
  unfold kakuyomuAssemble at hasm
  simp only [] at hasm
  split at hasm
  next ht =>
    injection hasm with h1 _
    rw [← h1] at hok
    exact absurd hok (by simp)
  next title ht =>
  split at hasm
  next ha =>
    injection hasm with h1 _
    rw [← h1] at hok
    exact absurd hok (by simp)
  next author ha =>
  split at hasm
  next hst =>
    injection hasm with h1 _
    rw [← h1] at hok
    exact absurd hok (by simp)
  next status hst =>
  split at hasm
  next hse =>
    split at hasm
    next hce =>
      injection hasm with h1 _
      rw [← h1] at hok
      exact absurd hok (by simp)
    next hce =>
      injection hasm with h1 _
      rw [← h1] at hok
      rcases hf : (kFetchChapters w (d.moveChaptersToSection).chapters).1 with fe | chs
      · rw [hf] at hok; exact absurd hok (by simp [Except.map])
      rw [hf] at hok
      simp only [Except.map] at hok
      injection hok with h2
      rw [← h2]
      have hord : chs.map Chapter.order_num =
          (d.moveChaptersToSection).chapters.map ChapterInfo.order_num :=
        kFetchChapters_orders w _ chs hf
      have hsecnil : (d.moveChaptersToSection).sections = [] := by
        cases hx : (d.moveChaptersToSection).sections
        · rfl
        · rw [hx] at hse; simp at hse
      have hfl : flatChapters (d.moveChaptersToSection).toToc =
          (d.moveChaptersToSection).chapters := by
        unfold flatChapters MainPageData.toToc
        rw [hsecnil]
        rfl
      show chs.map Chapter.order_num = _
      rw [hord, ← hfl, hflat]
      exact numberFrom_orderNums (payloads (tocEvents (w.page uri))) 0 (by simpa using hbound)
  next hse =>
    split at hasm
    next hany =>
      injection hasm with h1 _
      rw [← h1] at hok
      exact absurd hok (by simp)
    next hany =>
      injection hasm with h1 _
      rw [← h1] at hok
      rcases hf : (kFetchSections w (d.moveChaptersToSection).sections).1 with fe | ss
      · rw [hf] at hok; exact absurd hok (by simp [Except.map])
      rw [hf] at hok
      simp only [Except.map] at hok
      injection hok with h2
      rw [← h2]
      have hord : ss.map (fun s => s.chapters.map Chapter.order_num) =
          (d.moveChaptersToSection).sections.map
            (fun si => si.chapters.map ChapterInfo.order_num) :=
        kFetchSections_orders w _ ss hf
      have hchnil : (d.moveChaptersToSection).chapters = [] := by
        unfold MainPageData.moveChaptersToSection at hse ⊢
        by_cases hde : d.sections.isEmpty
        · rw [if_pos hde] at hse
          exact absurd hde (by simpa using hse)
        · rw [if_neg hde]
      have hfl : flatChapters (d.moveChaptersToSection).toToc =
          ((d.moveChaptersToSection).sections.map SectionInfo.chapters).flatten := by
        unfold flatChapters MainPageData.toToc
        rw [hchnil]
        simp
      show (ss.map (fun s => s.chapters.map Chapter.order_num)).flatten = _
      rw [hord]
      have hmm : ((d.moveChaptersToSection).sections.map
            (fun si => si.chapters.map ChapterInfo.order_num)).flatten =
          (((d.moveChaptersToSection).sections.map SectionInfo.chapters).flatten).map
            ChapterInfo.order_num := by
        rw [List.map_flatten, List.map_map]
        rfl
      rw [hmm, ← hfl, hflat]
      exact numberFrom_orderNums (payloads (tocEvents (w.page uri))) 0 (by simpa using hbound)




/-- Witness for C3: a complete two-chapter pipeline run in the world `w1`;
the hypotheses are discharged by computation. -/
theorem c3_order_numbers_witness :
    novelOrderNums
        ⟨"T", "Au", .running, "main",
          .chapters
            [⟨"c1", "x", 1, [.line [.span "hello"]]⟩,
             ⟨"c2", "y", 2, [.line [.span "hello"]]⟩]⟩ =
      List.range' 1 (payloads (tocEvents (w1.page "main"))).length :=
  c3_order_numbers w1 "main" _ rfl (show (2 : Nat) < U32 by norm_num [U32])

theorem makeKakuyomuNovel_hooks_error (w : World) (uri : String) (e : TraverseError)
    (h : kakuyomuMainHooks w = .error e) :
    makeKakuyomuNovel w uri = (.error (.traverseError e), [.fetchPage uri]) := by
  unfold makeKakuyomuNovel
  simp only []
  rw [h]

/-- C5 (amended): with any uncompilable selector among the kakuyomu hook
configuration, `make_kakuyomu_novel` reports the `CssSelectorCompilation`
error before any traversal and before any chapter fetch — but *after* the one
table-of-contents page fetch, which the source performs before constructing
the traverser, so a misconfigured adapter still fetches exactly that one
page. -/
theorem c5_selector_compilation (w : World) (uri : String)
    (hbad : w.compiles "#workTitle > a" = false ∨
      w.compiles "#workAuthor-activityName > a" = false ∨
      w.compiles "div#workInformationList > dl > dd:nth-child(2)" = false ∨
      w.compiles "li.widget-toc-chapter > span" = false ∨
      w.compiles "li.widget-toc-episode > a" = false) :
    ∃ s, w.compiles s = false ∧
      (makeKakuyomuNovel w uri).1 = .error (.traverseError (.cssSelectorCompilation s)) ∧
      (makeKakuyomuNovel w uri).2 = [.fetchPage uri] := by
  have herr : ∃ s, w.compiles s = false ∧
      kakuyomuMainHooks w = .error (.cssSelectorCompilation s) := by
    unfold kakuyomuMainHooks addHook
    by_cases h1 : w.compiles "#workTitle > a"
    case neg =>
      exact ⟨"#workTitle > a", by simpa using h1, by simp [h1, exceptBind_error]⟩
    by_cases h2 : w.compiles "#workAuthor-activityName > a"
    case neg =>
      exact ⟨"#workAuthor-activityName > a", by simpa using h2,
        by simp [h1, h2, exceptBind_ok, exceptBind_error]⟩
    by_cases h3 : w.compiles "div#workInformationList > dl > dd:nth-child(2)"
    case neg =>
      exact ⟨"div#workInformationList > dl > dd:nth-child(2)", by simpa using h3,
        by simp [h1, h2, h3, exceptBind_ok, exceptBind_error]⟩
    by_cases h4 : w.compiles "li.widget-toc-chapter > span"
    case neg =>
      exact ⟨"li.widget-toc-chapter > span", by simpa using h4,
        by simp [h1, h2, h3, h4, exceptBind_ok, exceptBind_error]⟩
    by_cases h5 : w.compiles "li.widget-toc-episode > a"
    case neg =>
      exact ⟨"li.widget-toc-episode > a", by simpa using h5,
        by simp [h1, h2, h3, h4, h5, exceptBind_ok, exceptBind_error]⟩
    rcases hbad with h | h | h | h | h <;> simp_all
  obtain ⟨s, hs1, hs2⟩ := herr
  refine ⟨s, hs1, ?_, ?_⟩ <;> rw [makeKakuyomuNovel_hooks_error w uri _ hs2]

/-- Witness for C5 (amended) in the world `w5`, whose CSS engine rejects the
title selector. -/
theorem c5_selector_compilation_witness :
    ∃ s, w5.compiles s = false ∧
      (makeKakuyomuNovel w5 "u").1 = .error (.traverseError (.cssSelectorCompilation s)) ∧
      (makeKakuyomuNovel w5 "u").2 = [.fetchPage "u"] :=
  c5_selector_compilation w5 "u" (Or.inl rfl)

/-- C5 counterexample: in the world `w5` the title selector does not compile,
and the claim says a misconfigured adapter never performs a page fetch; but
`make_kakuyomu_novel` fetches the table-of-contents page (line 47) before any
`add_hook` call compiles a selector, so the error is reported *after* a page
fetch has already happened. -/
theorem c5_selector_compilation_counterexample :
    w5.compiles "#workTitle > a" = false ∧
    (makeKakuyomuNovel w5 "u").1 =
      .error (.traverseError (.cssSelectorCompilation "#workTitle > a")) ∧
    Effect.fetchPage "u" ∈ (makeKakuyomuNovel w5 "u").2 := by
  refine ⟨rfl, rfl, ?_⟩
  rw [show (makeKakuyomuNovel w5 "u").2 = [.fetchPage "u"] from rfl]
  exact List.Mem.head _




theorem selInfo_disjoint (root : Node) (p : List Nat)
    (h : selInfoFinished root p = true) : selInfoRunning root p = false := by
  unfold selInfoFinished at h
  unfold selInfoRunning
  cases hA : root.atPath p with
  | none => rfl
  | some el =>
      rw [hA] at h
      have hid : el.idAttr = some "noveltype" := by simpa using h
      show (el.idAttr == some "noveltype_notend") = false
      rw [hid]
      rfl

theorem info_step_comm (root : Node) (pe : List Nat × Node) (d : InfoPageData) :
    traverseStep root infoHookList d pe =
      ((if pe.2.isElement then
          (if selInfoFinished root pe.1 then some NovelStatus.finished
           else if selInfoRunning root pe.1 then some NovelStatus.running else none)
        else none).elim d (fun m => ⟨some m⟩)) := by
  by_cases hel : pe.2.isElement
  case neg => simp [traverseStep, hel]
  simp only [traverseStep, hel, if_true]
  show (if selInfoRunning root pe.1 then
          infoGetRunning (if selInfoFinished root pe.1 then infoGetFinished d pe.2 else d) pe.2
        else (if selInfoFinished root pe.1 then infoGetFinished d pe.2 else d)) = _
  by_cases hF : selInfoFinished root pe.1
  · have hR : selInfoRunning root pe.1 = false := selInfo_disjoint root pe.1 hF
    rw [if_neg (by simp [hR]), if_pos hF]
    simp [hF, infoGetFinished]
  · by_cases hR : selInfoRunning root pe.1
    · rw [if_pos hR, if_neg hF]
      simp [hF, hR, infoGetRunning]
    · rw [if_neg hR, if_neg hF]
      simp [hF, hR]

theorem infoScan_char (root : Node) :
    infoScan root = (infoMarkers root).foldl (fun _ m => (⟨some m⟩ : InfoPageData)) ⟨none⟩ := by
  unfold infoScan traverse infoMarkers
  exact foldl_proj_filterMap (fun x => x) (traverseStep root infoHookList) _
    (fun _ m => ⟨some m⟩) (fun s t => info_step_comm root t s) root.descWithPaths ⟨none⟩

theorem infoHooks_ok (w : World) (h1 : w.compiles "#noveltype" = true)
    (h2 : w.compiles "#noveltype_notend" = true) :
    infoHooks w = .ok infoHookList := by
  unfold infoHooks addHook
  simp [h1, h2, exceptBind_ok, infoHookList]

theorem fetchStatusInInfo_char (w : World) (uri : String)
    (h1 : w.compiles "#noveltype" = true) (h2 : w.compiles "#noveltype_notend" = true) :
    (fetchStatusInInfo w uri).1 =
      (match (infoScan (w.page uri)).status with
       | some s => .ok s
       | none => .error (.componentMissing .status)) := by
  unfold fetchStatusInInfo
  rw [infoHooks_ok w h1 h2]
  show (match (infoScan (w.page uri)).status with
        | some s => ((Except.ok s : Except NovelError NovelStatus),
            [Effect.fetchPage uri] ++ [Effect.traversal])
        | none => (.error (.componentMissing .status),
            [Effect.fetchPage uri] ++ [Effect.traversal])).1 = _
  rcases hs : (infoScan (w.page uri)).status with _ | s <;> rfl


theorem statusProj_title (d : Except Unit MainPageData) (el : Node) :
    statusProj (kGetTitle d el) = statusProj d := by
  cases d <;> simp [kGetTitle, statusProj, Except.map]

theorem statusProj_author (d : Except Unit MainPageData) (el : Node) :
    statusProj (kGetAuthor d el) = statusProj d := by
  cases d <;> simp [kGetAuthor, statusProj, Except.map]

theorem statusProj_section (d : Except Unit MainPageData) (el : Node) :
    statusProj (kGetSection d el) = statusProj d := by
  cases d with
  | error u => rfl
  | ok dd =>
      unfold kGetSection MainPageData.moveChaptersToSection
      simp only [Except.map]
      split_ifs <;> rfl

theorem statusProj_statusHook (d : Except Unit MainPageData) (el : Node) :
    statusProj (kGetStatus d el) = (statusProj d).map (recognizeStatus el.textContents) := by
  cases d with
  | error u => rfl
  | ok dd =>
      unfold kGetStatus recognizeStatus
      simp only [Except.map]
      split_ifs <;> rfl

theorem statusProj_if_title (c : Prop) [Decidable c] (X : Except Unit MainPageData) (el : Node) :
    statusProj (if c then kGetTitle X el else X) = statusProj X := by
  split_ifs with h
  · exact statusProj_title X el
  · rfl

theorem statusProj_if_author (c : Prop) [Decidable c] (X : Except Unit MainPageData) (el : Node) :
    statusProj (if c then kGetAuthor X el else X) = statusProj X := by
  split_ifs with h
  · exact statusProj_author X el
  · rfl

theorem statusProj_if_section (c : Prop) [Decidable c] (X : Except Unit MainPageData) (el : Node) :
    statusProj (if c then kGetSection X el else X) = statusProj X := by
  split_ifs with h
  · exact statusProj_section X el
  · rfl

theorem stStep_txt (d : Except Unit MainPageData) (t : String) :
    stStep (statusProj d) (.txt t) = (statusProj d).map (recognizeStatus t) := by
  cases d <;> rfl

theorem statusProj_chapter (d : Except Unit MainPageData) (el : Node) :
    statusProj (kGetChapter d el) =
      (match chapExtract el with
       | some _ => statusProj d
       | none => stStep (statusProj d) .panic) := by
  cases d with
  | error u => cases hce : chapExtract el with
      | none => rfl
      | some v => rfl
  | ok dd =>
      rw [kGetChapter_extract]
      cases hce : chapExtract el with
      | none => rfl
      | some v =>
          rcases v with ⟨n, dt, h⟩
          rfl

theorem st_step_comm (root : Node) (pe : List Nat × Node) (d : Except Unit MainPageData) :
    statusProj (traverseStep root kakuyomuHookList d pe) =
      (stEventOf root pe).elim (statusProj d) (stStep (statusProj d)) := by
  by_cases hel : pe.2.isElement
  case neg => simp [traverseStep, stEventOf, hel]
  case pos =>
  simp only [traverseStep, hel, if_true]
  show statusProj
      (if selKChapter root pe.1 then
        kGetChapter
          (if selKSection root pe.1 then
            kGetSection
              (if selKStatus root pe.1 then
                kGetStatus
                  (if selKAuthor root pe.1 then
                    kGetAuthor (if selKTitle root pe.1 then kGetTitle d pe.2 else d) pe.2
                  else (if selKTitle root pe.1 then kGetTitle d pe.2 else d)) pe.2
              else
                (if selKAuthor root pe.1 then
                  kGetAuthor (if selKTitle root pe.1 then kGetTitle d pe.2 else d) pe.2
                else (if selKTitle root pe.1 then kGetTitle d pe.2 else d))) pe.2
          else
            (if selKStatus root pe.1 then
              kGetStatus
                (if selKAuthor root pe.1 then
                  kGetAuthor (if selKTitle root pe.1 then kGetTitle d pe.2 else d) pe.2
                else (if selKTitle root pe.1 then kGetTitle d pe.2 else d)) pe.2
            else
              (if selKAuthor root pe.1 then
                kGetAuthor (if selKTitle root pe.1 then kGetTitle d pe.2 else d) pe.2
              else (if selKTitle root pe.1 then kGetTitle d pe.2 else d)))) pe.2
      else
        (if selKSection root pe.1 then
          kGetSection
            (if selKStatus root pe.1 then
              kGetStatus
                (if selKAuthor root pe.1 then
                  kGetAuthor (if selKTitle root pe.1 then kGetTitle d pe.2 else d) pe.2
                else (if selKTitle root pe.1 then kGetTitle d pe.2 else d)) pe.2
            else
              (if selKAuthor root pe.1 then
                kGetAuthor (if selKTitle root pe.1 then kGetTitle d pe.2 else d) pe.2
              else (if selKTitle root pe.1 then kGetTitle d pe.2 else d))) pe.2
        else
          (if selKStatus root pe.1 then
            kGetStatus
              (if selKAuthor root pe.1 then
                kGetAuthor (if selKTitle root pe.1 then kGetTitle d pe.2 else d) pe.2
              else (if selKTitle root pe.1 then kGetTitle d pe.2 else d)) pe.2
          else
            (if selKAuthor root pe.1 then
              kGetAuthor (if selKTitle root pe.1 then kGetTitle d pe.2 else d) pe.2
            else (if selKTitle root pe.1 then kGetTitle d pe.2 else d))))) =
      (stEventOf root pe).elim (statusProj d) (stStep (statusProj d))
  by_cases hSt : selKStatus root pe.1
  · have hCh : selKChapter root pe.1 = false := selKStatus_not_chapter root pe.1 hSt
    have hSec : selKSection root pe.1 = false := selKStatus_not_section root pe.1 hSt
    rw [if_neg (by simp [hCh]), if_neg (by simp [hSec]), if_pos hSt,
      statusProj_statusHook, statusProj_if_author, statusProj_if_title]
    rw [show stEventOf root pe = some (.txt pe.2.textContents) from by
      unfold stEventOf; rw [if_pos hel, if_pos hSt]]
    rw [show (some (StEvent.txt pe.2.textContents)).elim (statusProj d)
        (stStep (statusProj d)) = stStep (statusProj d) (.txt pe.2.textContents) from rfl]
    rw [stStep_txt]
  · by_cases hCh : selKChapter root pe.1
    · have hSec : selKSection root pe.1 = false := by
        by_cases hs : selKSection root pe.1
        · rw [selKSection_not_chapter root pe.1 hs] at hCh; exact absurd hCh (by simp)
        · simpa using hs
      rw [if_pos hCh, if_neg (by simp [hSec]), if_neg hSt, statusProj_chapter,
        statusProj_if_author, statusProj_if_title]
      rw [show stEventOf root pe =
          (match chapExtract pe.2 with
           | some _ => none
           | none => some StEvent.panic) from by
        unfold stEventOf
        rw [if_pos hel, if_neg (by simp [hSt]), if_pos hCh]]
      rcases chapExtract pe.2 with _ | v <;> rfl
    · rw [if_neg hCh, statusProj_if_section, if_neg hSt, statusProj_if_author,
        statusProj_if_title]
      rw [show stEventOf root pe = none from by
        unfold stEventOf
        rw [if_pos hel, if_neg (by simp [hSt]), if_neg (by simp [hCh])]]
      rfl

theorem kakuyomuMainScan_status (root : Node) :
    statusProj (kakuyomuMainScan root) = (stEvents root).foldl stStep (.ok none) := by
  unfold kakuyomuMainScan traverse stEvents
  exact foldl_proj_filterMap statusProj (traverseStep root kakuyomuHookList)
    (stEventOf root) stStep (fun s t => st_step_comm root t s) root.descWithPaths
    (.ok MainPageData.default)



/-- Unrecognized status texts leave the kakuyomu status fold unchanged
(`get_status` keeps the previous value on any other string). -/
theorem stFold_unrecognized (ts : List String) :
    ∀ (st : Option NovelStatus),
      (∀ t ∈ ts, t ≠ "連載中" ∧ t ≠ "完結済") →
      (ts.map StEvent.txt).foldl stStep (.ok st) = .ok st := by
  induction ts with
  | nil => intro st _; rfl
  | cons t rest ih =>
      intro st h
      rw [List.map_cons, List.foldl_cons]
      have ht := h t (List.mem_cons_self t rest)
      have hs : stStep (.ok st) (.txt t) = .ok st := by
        show Except.ok (recognizeStatus t st) = Except.ok st
        unfold recognizeStatus
        rw [if_neg (by simpa using ht.1), if_neg (by simpa using ht.2)]
      rw [hs]
      exact ih st fun x hx => h x (List.mem_cons_of_mem t hx)

/-- **C7** (status vocabulary). Syosetu: when both info-page selectors
compile, an info page whose marker list is exactly the finished marker makes
`fetch_status_in_info` return `Finished`; exactly the running marker returns
`Running`; no marker at all (in particular a page of only unrecognized text)
fails with `ComponentMissing Status`. Kakuyomu: on a successful main-page
traversal, status elements reading exactly `完結済` end with status
`Finished`, exactly `連載中` end with `Running`, and status texts all
outside the vocabulary leave the status unset, in which case assembly
(given title and author) fails with `ComponentMissing Status` rather than
defaulting. -/
theorem c7_status_vocabulary :
    (∀ (w : World) (uri : String),
      w.compiles "#noveltype" = true → w.compiles "#noveltype_notend" = true →
      (infoMarkers (w.page uri) = [.finished] →
        (fetchStatusInInfo w uri).1 = .ok .finished) ∧
      (infoMarkers (w.page uri) = [.running] →
        (fetchStatusInInfo w uri).1 = .ok .running) ∧
      (infoMarkers (w.page uri) = [] →
        (fetchStatusInInfo w uri).1 = .error (.componentMissing .status))) ∧
    (∀ (root : Node) (d : MainPageData), kakuyomuMainScan root = .ok d →
      (stEvents root = [.txt "完結済"] → d.status = some .finished) ∧
      (stEvents root = [.txt "連載中"] → d.status = some .running) ∧
      (∀ ts : List String, stEvents root = ts.map StEvent.txt →
        (∀ t ∈ ts, t ≠ "連載中" ∧ t ≠ "完結済") → d.status = none)) ∧
    (∀ (w : World) (uri : String) (d : MainPageData) (ti au : String),
      d.title = some ti → d.author = some au → d.status = none →
      (kakuyomuAssemble w uri d).1 = .error (.componentMissing .status)) := by
  refine ⟨?_, ?_, ?_⟩
  · intro w uri h1 h2
    refine ⟨?_, ?_, ?_⟩ <;> intro hm <;>
      rw [fetchStatusInInfo_char w uri h1 h2, infoScan_char, hm] <;> rfl
  · intro root d hscan
    have hchar := kakuyomuMainScan_status root
    rw [hscan] at hchar
    refine ⟨?_, ?_, ?_⟩
    · intro hev
      rw [hev] at hchar
      have h2 : statusProj (Except.ok d) = .ok (some NovelStatus.finished) := by
        rw [hchar]; rfl
      have h3 : (Except.ok d.status : Except Unit (Option NovelStatus))
          = .ok (some NovelStatus.finished) := h2
      exact Except.ok.inj h3
    · intro hev
      rw [hev] at hchar
      have h2 : statusProj (Except.ok d) = .ok (some NovelStatus.running) := by
        rw [hchar]; rfl
      have h3 : (Except.ok d.status : Except Unit (Option NovelStatus))
          = .ok (some NovelStatus.running) := h2
      exact Except.ok.inj h3
    · intro ts hev hun
      rw [hev, stFold_unrecognized ts none hun] at hchar
      have h3 : (Except.ok d.status : Except Unit (Option NovelStatus))
          = .ok none := hchar
      exact Except.ok.inj h3
  · intro w uri d ti au hti hau hst
    obtain ⟨_, _, _, hmt, hma, hms⟩ := toToc_move d
    unfold kakuyomuAssemble
    simp only [hmt.trans hti, hma.trans hau, hms.trans hst]

/-- C7 witness: the three concrete info pages, a kakuyomu page holding only
a completed-status element, and a concrete accumulator missing only the
status. -/
theorem c7_status_vocabulary_witness :
    (fetchStatusInInfo (constWorld infoFinishedRoot) "i").1 = .ok .finished ∧
    (fetchStatusInInfo (constWorld infoRunningRoot) "i").1 = .ok .running ∧
    (fetchStatusInInfo (constWorld infoEmptyRoot) "i").1
      = .error (.componentMissing .status) ∧
    (⟨none, none, some .finished, [], [], 0⟩ : MainPageData).status
      = some NovelStatus.finished ∧
    (kakuyomuAssemble (constWorld .other) "u" ⟨some "t", some "a", none, [], [], 0⟩).1
      = .error (.componentMissing .status) := by
  refine ⟨?_, ?_, ?_, ?_, ?_⟩
  · exact (c7_status_vocabulary.1 (constWorld infoFinishedRoot) "i" rfl rfl).1 rfl
  · exact (c7_status_vocabulary.1 (constWorld infoRunningRoot) "i" rfl rfl).2.1 rfl
  · exact (c7_status_vocabulary.1 (constWorld infoEmptyRoot) "i" rfl rfl).2.2 rfl
  · exact (c7_status_vocabulary.2.1 kStatusRoot
      ⟨none, none, some .finished, [], [], 0⟩ rfl).1 rfl
  · exact c7_status_vocabulary.2.2 (constWorld .other) "u"
      ⟨some "t", some "a", none, [], [], 0⟩ "t" "a" rfl rfl rfl


theorem selKContentLine_tag (root : Node) (p : List Nat)
    (h : selKContentLine root p = true) :
    ∃ el, root.atPath p = some el ∧ el.tagName = "p" := by
  unfold selKContentLine at h
  cases hA : root.atPath p with
  | none => rw [hA] at h; simp at h
  | some el =>
      cases hP : selParent root p with
      | none => rw [hA, hP] at h; simp at h
      | some par =>
          rw [hA, hP] at h
          simp only [Bool.and_eq_true, beq_iff_eq] at h
          exact ⟨el, rfl, h.1.1⟩

theorem selKBlankNeg_tag (root : Node) (p : List Nat)
    (h : selKBlankNeg root p = true) :
    ∃ el, root.atPath p = some el ∧ el.tagName = "p" := by
  unfold selKBlankNeg at h
  cases hA : root.atPath p with
  | none => rw [hA] at h; simp at h
  | some el =>
      cases hP : selParent root p with
      | none => rw [hA, hP] at h; simp at h
      | some par =>
          rw [hA, hP] at h
          simp only [Bool.and_eq_true, beq_iff_eq] at h
          exact ⟨el, rfl, h.1.1.1⟩

theorem selKBlank_tag (root : Node) (p : List Nat)
    (h : selKBlank root p = true) :
    ∃ el, root.atPath p = some el ∧ el.tagName = "br" := by
  unfold selKBlank at h
  cases hA : root.atPath p with
  | none => rw [hA] at h; simp at h
  | some el =>
      cases hP : selParent root p with
      | none => rw [hA, hP] at h; simp at h
      | some par =>
          cases hG : selGrandparent root p with
          | none => rw [hA, hP, hG] at h; simp at h
          | some gp =>
              rw [hA, hP, hG] at h
              simp only [Bool.and_eq_true, beq_iff_eq] at h
              exact ⟨el, rfl, h.1.1.1.1⟩

theorem selSLine_tag (root : Node) (p : List Nat)
    (h : selSLine root p = true) :
    ∃ el, root.atPath p = some el ∧ el.tagName = "p" := by
  unfold selSLine at h
  cases hA : root.atPath p with
  | none => rw [hA] at h; simp at h
  | some el =>
      cases hP : selParent root p with
      | none => rw [hA, hP] at h; simp at h
      | some par =>
          rw [hA, hP] at h
          simp only [Bool.and_eq_true, beq_iff_eq] at h
          exact ⟨el, rfl, h.1.1⟩

theorem selSBlank_tag (root : Node) (p : List Nat)
    (h : selSBlank root p = true) :
    ∃ el, root.atPath p = some el ∧ el.tagName = "br" := by
  unfold selSBlank at h
  cases hA : root.atPath p with
  | none => rw [hA] at h; simp at h
  | some el =>
      cases hP : selParent root p with
      | none => rw [hA, hP] at h; simp at h
      | some par =>
          cases hG : selGrandparent root p with
          | none => rw [hA, hP, hG] at h; simp at h
          | some gp =>
              rw [hA, hP, hG] at h
              simp only [Bool.and_eq_true, beq_iff_eq] at h
              exact ⟨el, rfl, h.1.1.1⟩

theorem selKContentLine_not_blank (root : Node) (p : List Nat)
    (h : selKContentLine root p = true) : selKBlank root p = false := by
  obtain ⟨el, hA, htag⟩ := selKContentLine_tag root p h
  unfold selKBlank
  rw [hA]
  cases hP : selParent root p
  · rfl
  · cases hG : selGrandparent root p
    · rfl
    · simp [htag]

theorem selKBlankNeg_not_blank (root : Node) (p : List Nat)
    (h : selKBlankNeg root p = true) : selKBlank root p = false := by
  obtain ⟨el, hA, htag⟩ := selKBlankNeg_tag root p h
  unfold selKBlank
  rw [hA]
  cases hP : selParent root p
  · rfl
  · cases hG : selGrandparent root p
    · rfl
    · simp [htag]

theorem selKBlank_not_content (root : Node) (p : List Nat)
    (h : selKBlank root p = true) : selKContentLine root p = false := by
  obtain ⟨el, hA, htag⟩ := selKBlank_tag root p h
  unfold selKContentLine
  rw [hA]
  cases hP : selParent root p
  · rfl
  · simp [htag]

theorem selSLine_not_blank (root : Node) (p : List Nat)
    (h : selSLine root p = true) : selSBlank root p = false := by
  obtain ⟨el, hA, htag⟩ := selSLine_tag root p h
  unfold selSBlank
  rw [hA]
  cases hP : selParent root p
  · rfl
  · cases hG : selGrandparent root p
    · rfl
    · simp [htag]

theorem selSBlank_not_line (root : Node) (p : List Nat)
    (h : selSBlank root p = true) : selSLine root p = false := by
  obtain ⟨el, hA, htag⟩ := selSBlank_tag root p h
  unfold selSLine
  rw [hA]
  cases hP : selParent root p
  · rfl
  · simp [htag]

theorem kc_step_comm (root : Node) (pe : List Nat × Node)
    (d : Except Unit (List ContentLine)) :
    traverseStep root kContentHookList d pe =
      (kCEventOf root pe).elim d (cStep d) := by
  by_cases hel : pe.2.isElement
  case neg => simp [traverseStep, kCEventOf, hel]
  simp only [traverseStep, hel, if_true]
  show (if selKBlank root pe.1 then
          kGetBlankLine
            (if selKBlankNeg root pe.1 then d
             else if selKContentLine root pe.1 then kGetContentLine d pe.2 else d) pe.2
        else
          (if selKBlankNeg root pe.1 then d
           else if selKContentLine root pe.1 then kGetContentLine d pe.2 else d))
      = (kCEventOf root pe).elim d (cStep d)
  by_cases hng : selKBlankNeg root pe.1
  · have hbl : selKBlank root pe.1 = false := selKBlankNeg_not_blank root pe.1 hng
    rw [if_neg (by simp [hbl]), if_pos hng]
    simp [kCEventOf, hel, hng, hbl]
  · have hng' : selKBlankNeg root pe.1 = false := by simpa using hng
    by_cases hc : selKContentLine root pe.1
    · have hbl : selKBlank root pe.1 = false := selKContentLine_not_blank root pe.1 hc
      rw [if_neg (by simp [hbl]), if_neg hng, if_pos hc]
      cases hlw : lineWalk pe.2.children with
      | ok cs =>
          simp only [kCEventOf, hel, if_true, hc, hng', hlw]
          cases d <;> simp [kGetContentLine, cStep, Except.map, hlw]
      | error e =>
          cases e
          simp only [kCEventOf, hel, if_true, hc, hng', hlw]
          cases d <;> simp [kGetContentLine, cStep, Except.map, hlw]
    · have hc' : selKContentLine root pe.1 = false := by simpa using hc
      by_cases hbl : selKBlank root pe.1
      · rw [if_pos hbl, if_neg hng, if_neg hc]
        simp only [kCEventOf, hel, if_true, hc', hng', hbl]
        cases d <;> simp [kGetBlankLine, cStep, Except.map]
      · have hbl' : selKBlank root pe.1 = false := by simpa using hbl
        rw [if_neg hbl, if_neg hng, if_neg hc]
        simp [kCEventOf, hel, hc', hng', hbl']

theorem sc_step_comm (root : Node) (pe : List Nat × Node)
    (d : Except Unit (List ContentLine)) :
    traverseStep root sContentHookList d pe =
      (sCEventOf root pe).elim d (cStep d) := by
  by_cases hel : pe.2.isElement
  case neg => simp [traverseStep, sCEventOf, hel]
  simp only [traverseStep, hel, if_true]
  show (if selSBlank root pe.1 then
          sGetBlank (if selSLine root pe.1 then sGetLine d pe.2 else d) pe.2
        else (if selSLine root pe.1 then sGetLine d pe.2 else d))
      = (sCEventOf root pe).elim d (cStep d)
  by_cases hl : selSLine root pe.1
  · have hbl : selSBlank root pe.1 = false := selSLine_not_blank root pe.1 hl
    rw [if_neg (by simp [hbl]), if_pos hl]
    cases hlw : lineWalk pe.2.children with
    | ok cs =>
        cases cs with
        | nil =>
            simp only [sCEventOf, hel, if_true, hl, hlw]
            cases d <;> simp [sGetLine, Except.map, hlw]
        | cons c cs' =>
            simp only [sCEventOf, hel, if_true, hl, hlw]
            cases d <;> simp [sGetLine, cStep, Except.map, hlw]
    | error e =>
        cases e
        simp only [sCEventOf, hel, if_true, hl, hlw]
        cases d <;> simp [sGetLine, cStep, Except.map, hlw]
  · have hl' : selSLine root pe.1 = false := by simpa using hl
    by_cases hbl : selSBlank root pe.1
    · rw [if_pos hbl, if_neg hl]
      simp only [sCEventOf, hel, if_true, hl', hbl]
      cases d <;> simp [sGetBlank, cStep, Except.map]
    · have hbl' : selSBlank root pe.1 = false := by simpa using hbl
      rw [if_neg hbl, if_neg hl]
      simp [sCEventOf, hel, hl', hbl']

theorem kContentScan_fold (root : Node) :
    kakuyomuContentScan root = (kCEvents root).foldl cStep (.ok []) := by
  unfold kakuyomuContentScan traverse kCEvents
  exact foldl_proj_filterMap (fun x => x) (traverseStep root kContentHookList)
    (kCEventOf root) cStep (fun s t => kc_step_comm root t s) root.descWithPaths
    (.ok [])

theorem sContentScan_fold (root : Node) :
    syosetuContentScan root = (sCEvents root).foldl cStep (.ok []) := by
  unfold syosetuContentScan traverse sCEvents
  exact foldl_proj_filterMap (fun x => x) (traverseStep root sContentHookList)
    (sCEventOf root) cStep (fun s t => sc_step_comm root t s) root.descWithPaths
    (.ok [])

theorem cFold_error (evs : List CEvent) (u : Unit) :
    evs.foldl cStep (.error u) = .error u := by
  induction evs with
  | nil => rfl
  | cons e rest ih =>
      rw [List.foldl_cons]
      rw [show cStep (.error u) e = .error u from by cases e <;> rfl]
      exact ih

theorem cFold_ok (evs : List CEvent) : ∀ (ls0 ls : List ContentLine),
    evs.foldl cStep (.ok ls0) = .ok ls → ls = ls0 ++ evs.filterMap evLine := by
  induction evs with
  | nil =>
      intro ls0 ls h
      rw [List.filterMap_nil, List.append_nil]
      exact (Except.ok.inj h).symm
  | cons e rest ih =>
      intro ls0 ls h
      rw [List.foldl_cons] at h
      cases e with
      | line cs =>
          rw [show cStep (.ok ls0) (.line cs) = .ok (ls0 ++ [.line cs]) from rfl] at h
          rw [List.filterMap_cons]
          simp only [evLine]
          rw [ih _ _ h, List.append_assoc]
          rfl
      | blankL =>
          rw [show cStep (.ok ls0) CEvent.blankL = .ok (ls0 ++ [.blank]) from rfl] at h
          rw [List.filterMap_cons]
          simp only [evLine]
          rw [ih _ _ h, List.append_assoc]
          rfl
      | panic =>
          rw [show cStep (.ok ls0) CEvent.panic = .error () from rfl, cFold_error] at h
          exact absurd h (by simp)

theorem kCEvent_bind_line (root : Node) (pe : List Nat × Node) :
    (kCEventOf root pe).bind evLine = kLineContrib root pe := by
  unfold kCEventOf kLineContrib
  by_cases hel : pe.2.isElement
  · simp only [hel, if_true]
    by_cases hc : (selKContentLine root pe.1 && !selKBlankNeg root pe.1) = true
    · rw [if_pos hc, if_pos hc]
      cases hlw : lineWalk pe.2.children <;> simp [evLine]
    · rw [if_neg hc, if_neg hc]
      by_cases hbl : selKBlank root pe.1 <;> simp [hbl, evLine]
  · simp [hel]

theorem sCEvent_bind_line (root : Node) (pe : List Nat × Node) :
    (sCEventOf root pe).bind evLine = sLineContrib root pe := by
  unfold sCEventOf sLineContrib
  by_cases hel : pe.2.isElement
  · simp only [hel, if_true]
    by_cases hl : selSLine root pe.1
    · rw [if_pos hl, if_pos hl]
      cases hlw : lineWalk pe.2.children with
      | ok cs => cases cs <;> simp [evLine]
      | error e => simp [evLine]
    · rw [if_neg hl, if_neg hl]
      by_cases hbl : selSBlank root pe.1 <;> simp [hbl, evLine]
  · simp [hel]

theorem kCEvents_line (root : Node) :
    (kCEvents root).filterMap evLine
      = (root.descWithPaths).filterMap (kLineContrib root) := by
  unfold kCEvents
  rw [List.filterMap_filterMap]
  rw [funext (kCEvent_bind_line root)]

theorem sCEvents_line (root : Node) :
    (sCEvents root).filterMap evLine
      = (root.descWithPaths).filterMap (sLineContrib root) := by
  unfold sCEvents
  rw [List.filterMap_filterMap]
  rw [funext (sCEvent_bind_line root)]

theorem kContentScan_ok (root : Node) (ls : List ContentLine)
    (h : kakuyomuContentScan root = .ok ls) :
    ls = (root.descWithPaths).filterMap (kLineContrib root) := by
  rw [kContentScan_fold] at h
  have h2 := cFold_ok (kCEvents root) [] ls h
  rw [kCEvents_line] at h2
  simpa using h2

theorem sContentScan_ok (root : Node) (ls : List ContentLine)
    (h : syosetuContentScan root = .ok ls) :
    ls = (root.descWithPaths).filterMap (sLineContrib root) := by
  rw [sContentScan_fold] at h
  have h2 := cFold_ok (sCEvents root) [] ls h
  rw [sCEvents_line] at h2
  simpa using h2

theorem kContentHooks_cases (w : World) :
    kakuyomuContentHooks w = .ok kContentHookList ∨
    ∃ s, kakuyomuContentHooks w = .error (.cssSelectorCompilation s) := by
  unfold kakuyomuContentHooks addHook
  by_cases h1 : w.compiles ".widget-episodeBody > p"
  case neg => right; exact ⟨".widget-episodeBody > p", by simp [h1, exceptBind_error]⟩
  by_cases h2 : w.compiles ".widget-episodeBody > p.blank"
  case neg =>
    right
    exact ⟨".widget-episodeBody > p.blank", by simp [h1, h2, exceptBind_error]⟩
  by_cases h3 : w.compiles ".widget-episodeBody > p.blank > br"
  case neg =>
    right
    exact ⟨".widget-episodeBody > p.blank > br",
      by simp [h1, h2, h3, exceptBind_ok, exceptBind_error]⟩
  left
  simp [h1, h2, h3, exceptBind_ok, kContentHookList]

theorem sContentHooks_cases (w : World) :
    syosetuContentHooks w = .ok sContentHookList ∨
    ∃ s, syosetuContentHooks w = .error (.cssSelectorCompilation s) := by
  unfold syosetuContentHooks addHook
  by_cases h1 : w.compiles "#novel_honbun > p"
  case neg => right; exact ⟨"#novel_honbun > p", by simp [h1, exceptBind_error]⟩
  by_cases h2 : w.compiles "#novel_honbun > p > br"
  case neg =>
    right
    exact ⟨"#novel_honbun > p > br", by simp [h1, h2, exceptBind_ok, exceptBind_error]⟩
  left
  simp [h1, h2, exceptBind_ok, sContentHookList]

/-- **C6 counterexample.** A kakuyomu chapter body whose only paragraph is
empty (and not marked blank) extracts as one empty text line, not a
`BlankLine`; the same shape on syosetu extracts nothing at all, and the
whole fetch then fails with `ComponentMissing ChapterContent` — so an
"empty" paragraph does not yield exactly one `BlankLine`. -/
theorem c6_blank_line_counterexample :
    kakuyomuContentScan emptyParaRoot = .ok [ContentLine.line []] ∧
    syosetuContentScan sEmptyRoot = .ok [] ∧
    (fetchNovelContent (constWorld emptyParaRoot) "u").1
      = .ok [ContentLine.line []] ∧
    (fetchPageContent (constWorld sEmptyRoot) "u").1
      = .error (.componentMissing .chapterContent) :=
  ⟨rfl, rfl, rfl, rfl⟩

/-- **C6** (amended). On every chapter-body page whose extraction succeeds,
the extracted lines are exactly the document-order per-node contributions;
a node contributes a `BlankLine` exactly when the dedicated blank-line
selector matches it (kakuyomu: `.widget-episodeBody > p.blank > br`;
syosetu: `#novel_honbun > p > br`), so blank lines are in one-to-one,
order-preserving correspondence with blank-selector matches and are never
merged with adjacent text lines.  An *empty* paragraph, however, does not
yield a `BlankLine`: on kakuyomu it contributes an empty text line, and on
syosetu it contributes nothing. -/
theorem c6_blank_lines :
    (∀ (w : World) (uri : String) (ls : List ContentLine),
      (fetchNovelContent w uri).1 = .ok ls →
      ls = ((w.page uri).descWithPaths).filterMap (kLineContrib (w.page uri))) ∧
    (∀ (w : World) (uri : String) (ls : List ContentLine),
      (fetchPageContent w uri).1 = .ok ls →
      ls = ((w.page uri).descWithPaths).filterMap (sLineContrib (w.page uri))) ∧
    (∀ (root : Node) (pe : List Nat × Node), pe.2.isElement = true →
      selKBlank root pe.1 = true → kLineContrib root pe = some .blank) ∧
    (∀ (root : Node) (pe : List Nat × Node),
      kLineContrib root pe = some ContentLine.blank → selKBlank root pe.1 = true) ∧
    (∀ (root : Node) (pe : List Nat × Node), pe.2.isElement = true →
      selSBlank root pe.1 = true → sLineContrib root pe = some .blank) ∧
    (∀ (root : Node) (pe : List Nat × Node),
      sLineContrib root pe = some ContentLine.blank → selSBlank root pe.1 = true) ∧
    (∀ (root : Node) (pe : List Nat × Node), pe.2.isElement = true →
      selKContentLine root pe.1 = true → selKBlankNeg root pe.1 = false →
      lineWalk pe.2.children = .ok [] →
      kLineContrib root pe = some (ContentLine.line [])) ∧
    (∀ (root : Node) (pe : List Nat × Node), selSLine root pe.1 = true →
      lineWalk pe.2.children = .ok [] → sLineContrib root pe = none) := by
  refine ⟨?kfetch, ?sfetch, ?kblank, ?kblankinv, ?sblank, ?sblankinv, ?kempty, ?sempty⟩
  case kfetch =>
    intro w uri ls h
    unfold fetchNovelContent at h
    simp only [] at h
    split at h
    next e heq => simp at h
    next hooks heq =>
      have hhl : hooks = kContentHookList := by
        rcases kContentHooks_cases w with hh | ⟨s, hh⟩
        · rw [hh] at heq; exact (Except.ok.inj heq).symm
        · rw [hh] at heq; exact absurd heq (by simp)
      subst hhl
      split at h
      next e heq2 => simp at h
      next lines heq2 =>
        by_cases hempty : lines.isEmpty
        · rw [if_pos hempty] at h; simp at h
        · rw [if_neg hempty] at h
          have hls : lines = ls := by simpa using h
          exact hls ▸ kContentScan_ok (w.page uri) lines heq2
  case sfetch =>
    intro w uri ls h
    unfold fetchPageContent at h
    simp only [] at h
    split at h
    next e heq => simp at h
    next hooks heq =>
      have hhl : hooks = sContentHookList := by
        rcases sContentHooks_cases w with hh | ⟨s, hh⟩
        · rw [hh] at heq; exact (Except.ok.inj heq).symm
        · rw [hh] at heq; exact absurd heq (by simp)
      subst hhl
      split at h
      next e heq2 => simp at h
      next lines heq2 =>
        by_cases hempty : lines.isEmpty
        · rw [if_pos hempty] at h; simp at h
        · rw [if_neg hempty] at h
          have hls : lines = ls := by simpa using h
          exact hls ▸ sContentScan_ok (w.page uri) lines heq2
  case kblank =>
    intro root pe hel hbl
    have hc : selKContentLine root pe.1 = false := selKBlank_not_content root pe.1 hbl
    unfold kLineContrib
    simp [hel, hc, hbl]
  case kblankinv =>
    intro root pe h
    unfold kLineContrib at h
    by_cases hel : pe.2.isElement
    · rw [if_pos hel] at h
      by_cases hc : (selKContentLine root pe.1 && !selKBlankNeg root pe.1) = true
      · rw [if_pos hc] at h
        cases hlw : lineWalk pe.2.children with
        | ok cs => rw [hlw] at h; simp at h
        | error e => rw [hlw] at h; simp at h
      · rw [if_neg hc] at h
        by_cases hbl : selKBlank root pe.1
        · exact hbl
        · rw [if_neg hbl] at h; simp at h
    · rw [if_neg hel] at h; simp at h
  case sblank =>
    intro root pe hel hbl
    have hl : selSLine root pe.1 = false := selSBlank_not_line root pe.1 hbl
    unfold sLineContrib
    simp [hel, hl, hbl]
  case sblankinv =>
    intro root pe h
    unfold sLineContrib at h
    by_cases hel : pe.2.isElement
    · rw [if_pos hel] at h
      by_cases hl : selSLine root pe.1
      · rw [if_pos hl] at h
        cases hlw : lineWalk pe.2.children with
        | ok cs =>
            rw [hlw] at h
            by_cases hcs : cs.isEmpty <;> simp [hcs] at h
        | error e => rw [hlw] at h; simp at h
      · rw [if_neg hl] at h
        by_cases hbl : selSBlank root pe.1
        · exact hbl
        · rw [if_neg hbl] at h; simp at h
    · rw [if_neg hel] at h; simp at h
  case kempty =>
    intro root pe hel hc hng hlw
    unfold kLineContrib
    simp [hel, hc, hng, hlw]
  case sempty =>
    intro root pe hl hlw
    unfold sLineContrib
    by_cases hel : pe.2.isElement
    · simp [hel, hl, hlw]
    · simp [hel]

/-- C6 witness: a kakuyomu body with a marked blank paragraph then a text
paragraph, and a syosetu body with a text paragraph then a `br`-only
paragraph; plus the per-node facts at the concrete `br` and at the empty
paragraphs. -/
theorem c6_blank_lines_witness :
    ([ContentLine.blank, ContentLine.line [Content.span "t"]]
      = ((blankThenTextRoot).descWithPaths).filterMap (kLineContrib blankThenTextRoot)) ∧
    ([ContentLine.line [Content.span "t"], ContentLine.blank]
      = ((sBodyRoot).descWithPaths).filterMap (sLineContrib sBodyRoot)) ∧
    kLineContrib blankThenTextRoot ([0, 0], .element "br" [] []) = some .blank ∧
    sLineContrib sBodyRoot ([1, 0], .element "br" [] []) = some .blank ∧
    selKBlank blankThenTextRoot [0, 0] = true ∧
    selSBlank sBodyRoot [1, 0] = true ∧
    kLineContrib emptyParaRoot ([0], .element "p" [] [])
      = some (ContentLine.line []) ∧
    sLineContrib sEmptyRoot ([0], .element "p" [] []) = none := by
  refine ⟨?_, ?_, ?_, ?_, ?_, ?_, ?_, ?_⟩
  · exact c6_blank_lines.1 (constWorld blankThenTextRoot) "u"
      [ContentLine.blank, ContentLine.line [Content.span "t"]] rfl
  · exact c6_blank_lines.2.1 (constWorld sBodyRoot) "u"
      [ContentLine.line [Content.span "t"], ContentLine.blank] rfl
  · exact c6_blank_lines.2.2.1 blankThenTextRoot ([0, 0], .element "br" [] [])
      rfl rfl
  · exact c6_blank_lines.2.2.2.2.1 sBodyRoot ([1, 0], .element "br" [] [])
      rfl rfl
  · exact c6_blank_lines.2.2.2.1 blankThenTextRoot ([0, 0], .element "br" [] []) rfl
  · exact c6_blank_lines.2.2.2.2.2.1 sBodyRoot ([1, 0], .element "br" [] []) rfl
  · exact c6_blank_lines.2.2.2.2.2.2.1 emptyParaRoot ([0], .element "p" [] [])
      rfl rfl rfl rfl
  · exact c6_blank_lines.2.2.2.2.2.2.2 sEmptyRoot ([0], .element "p" [] []) rfl rfl



/-- The syosetu final flush keeps the title, author and info-link fields. -/
theorem sFlush_fields (d : SMainPageData) :
    (d.appendChaptersToSection).title = d.title ∧
    (d.appendChaptersToSection).author = d.author ∧
    (d.appendChaptersToSection).info_path = d.info_path := by
  unfold SMainPageData.appendChaptersToSection
  split_ifs <;> simp

/-- **C8.** Assembly validation: on both adapters, when title, author or
status (kakuyomu) / title, author or info-link (syosetu) was not collected,
assembly fails with `ComponentMissing` naming that field; on syosetu a
failing status fetch propagates its error; when, after the final
pending-chapter flush, any section has zero chapters, assembly fails with
`ComponentMissing ChapterUnderSection`; and when no sections exist and zero
top-level chapters were collected it fails with `ComponentMissing Chapter`.
In every such case the result is an error, never a `Novel`. -/
theorem c8_assembly_validation :
    (∀ (w : World) (uri : String) (d : MainPageData),
      (d.title = none →
        (kakuyomuAssemble w uri d).1 = .error (.componentMissing .title)) ∧
      (∀ ti, d.title = some ti → d.author = none →
        (kakuyomuAssemble w uri d).1 = .error (.componentMissing .author)) ∧
      (∀ ti au, d.title = some ti → d.author = some au → d.status = none →
        (kakuyomuAssemble w uri d).1 = .error (.componentMissing .status)) ∧
      (∀ ti au st, d.title = some ti → d.author = some au → d.status = some st →
        (d.moveChaptersToSection).sections = [] →
        (d.moveChaptersToSection).chapters = [] →
        (kakuyomuAssemble w uri d).1 = .error (.componentMissing .chapter)) ∧
      (∀ ti au st, d.title = some ti → d.author = some au → d.status = some st →
        (d.moveChaptersToSection).sections.any (fun s => s.chapters.isEmpty) = true →
        (kakuyomuAssemble w uri d).1
          = .error (.componentMissing .chapterUnderSection))) ∧
    (∀ (w : World) (uri : String) (d : SMainPageData),
      (d.title = none →
        (syosetuAssemble w uri d).1 = .error (.componentMissing .title)) ∧
      (∀ ti, d.title = some ti → d.author = none →
        (syosetuAssemble w uri d).1 = .error (.componentMissing .author)) ∧
      (∀ ti au, d.title = some ti → d.author = some au → d.info_path = none →
        (syosetuAssemble w uri d).1 = .error (.componentMissing .infoPath)) ∧
      (∀ ti au ip e tr0, d.title = some ti → d.author = some au →
        d.info_path = some ip →
        fetchStatusInInfo w (syosetuMakeUri ip) = (.error e, tr0) →
        (syosetuAssemble w uri d).1 = .error e) ∧
      (∀ ti au ip st tr0, d.title = some ti → d.author = some au →
        d.info_path = some ip →
        fetchStatusInInfo w (syosetuMakeUri ip) = (.ok st, tr0) →
        (d.appendChaptersToSection).sections = [] →
        (d.appendChaptersToSection).chapters = [] →
        (syosetuAssemble w uri d).1 = .error (.componentMissing .chapter)) ∧
      (∀ ti au ip st tr0, d.title = some ti → d.author = some au →
        d.info_path = some ip →
        fetchStatusInInfo w (syosetuMakeUri ip) = (.ok st, tr0) →
        (d.appendChaptersToSection).sections.any (fun s => s.chapters.isEmpty)
          = true →
        (syosetuAssemble w uri d).1
          = .error (.componentMissing .chapterUnderSection))) := by
  constructor
  · intro w uri d
    obtain ⟨_, _, _, hmt, hma, hms⟩ := toToc_move d
    refine ⟨?_, ?_, ?_, ?_, ?_⟩
    · intro hti
      unfold kakuyomuAssemble
      simp only [hmt.trans hti]
    · intro ti hti hau
      unfold kakuyomuAssemble
      simp only [hmt.trans hti, hma.trans hau]
    · intro ti au hti hau hst
      unfold kakuyomuAssemble
      simp only [hmt.trans hti, hma.trans hau, hms.trans hst]
    · intro ti au st hti hau hst hsec hchap
      unfold kakuyomuAssemble
      simp only [hmt.trans hti, hma.trans hau, hms.trans hst]
      simp [hsec, hchap]
    · intro ti au st hti hau hst hany
      unfold kakuyomuAssemble
      simp only [hmt.trans hti, hma.trans hau, hms.trans hst]
      cases hs : (d.moveChaptersToSection).sections with
      | nil => rw [hs] at hany; simp at hany
      | cons a as =>
          rw [hs] at hany
          simp [hs, hany]
  · intro w uri d
    obtain ⟨hmt, hma, hmi⟩ := sFlush_fields d
    refine ⟨?_, ?_, ?_, ?_, ?_, ?_⟩
    · intro hti
      unfold syosetuAssemble
      simp only [hmt.trans hti]
    · intro ti hti hau
      unfold syosetuAssemble
      simp only [hmt.trans hti, hma.trans hau]
    · intro ti au hti hau hip
      unfold syosetuAssemble
      simp only [hmt.trans hti, hma.trans hau, hmi.trans hip]
    · intro ti au ip e tr0 hti hau hip hfetch
      unfold syosetuAssemble
      simp only [hmt.trans hti, hma.trans hau, hmi.trans hip, hfetch]
    · intro ti au ip st tr0 hti hau hip hfetch hsec hchap
      unfold syosetuAssemble
      simp only [hmt.trans hti, hma.trans hau, hmi.trans hip, hfetch]
      simp [hsec, hchap]
    · intro ti au ip st tr0 hti hau hip hfetch hany
      unfold syosetuAssemble
      simp only [hmt.trans hti, hma.trans hau, hmi.trans hip, hfetch]
      cases hs : (d.appendChaptersToSection).sections with
      | nil => rw [hs] at hany; simp at hany
      | cons a as =>
          rw [hs] at hany
          simp [hs, hany]

/-- C8 witness: concrete accumulators triggering every validation error on
both adapters, over concrete worlds. -/
theorem c8_assembly_validation_witness :
    (kakuyomuAssemble (constWorld .other) "u" ⟨none, none, none, [], [], 0⟩).1
      = .error (.componentMissing .title) ∧
    (kakuyomuAssemble (constWorld .other) "u"
        ⟨some "t", none, none, [], [], 0⟩).1
      = .error (.componentMissing .author) ∧
    (kakuyomuAssemble (constWorld .other) "u"
        ⟨some "t", some "a", none, [], [], 0⟩).1
      = .error (.componentMissing .status) ∧
    (kakuyomuAssemble (constWorld .other) "u"
        ⟨some "t", some "a", some .running, [], [], 0⟩).1
      = .error (.componentMissing .chapter) ∧
    (kakuyomuAssemble (constWorld .other) "u"
        ⟨some "t", some "a", some .running, [⟨"A", []⟩], [], 0⟩).1
      = .error (.componentMissing .chapterUnderSection) ∧
    (syosetuAssemble (constWorld infoFinishedRoot) "u"
        ⟨none, none, none, [], [], 0⟩).1
      = .error (.componentMissing .title) ∧
    (syosetuAssemble (constWorld infoFinishedRoot) "u"
        ⟨some "t", none, none, [], [], 0⟩).1
      = .error (.componentMissing .author) ∧
    (syosetuAssemble (constWorld infoFinishedRoot) "u"
        ⟨some "t", some "a", none, [], [], 0⟩).1
      = .error (.componentMissing .infoPath) ∧
    (syosetuAssemble (constWorld infoEmptyRoot) "u"
        ⟨some "t", some "a", some "/i", [], [], 0⟩).1
      = .error (.componentMissing .status) ∧
    (syosetuAssemble (constWorld infoFinishedRoot) "u"
        ⟨some "t", some "a", some "/i", [], [], 0⟩).1
      = .error (.componentMissing .chapter) ∧
    (syosetuAssemble (constWorld infoFinishedRoot) "u"
        ⟨some "t", some "a", some "/i", [⟨"A", []⟩], [], 0⟩).1
      = .error (.componentMissing .chapterUnderSection) := by
  refine ⟨?_, ?_, ?_, ?_, ?_, ?_, ?_, ?_, ?_, ?_, ?_⟩
  · exact (c8_assembly_validation.1 (constWorld .other) "u"
      ⟨none, none, none, [], [], 0⟩).1 rfl
  · exact (c8_assembly_validation.1 (constWorld .other) "u"
      ⟨some "t", none, none, [], [], 0⟩).2.1 "t" rfl rfl
  · exact (c8_assembly_validation.1 (constWorld .other) "u"
      ⟨some "t", some "a", none, [], [], 0⟩).2.2.1 "t" "a" rfl rfl rfl
  · exact (c8_assembly_validation.1 (constWorld .other) "u"
      ⟨some "t", some "a", some .running, [], [], 0⟩).2.2.2.1
      "t" "a" .running rfl rfl rfl rfl rfl
  · exact (c8_assembly_validation.1 (constWorld .other) "u"
      ⟨some "t", some "a", some .running, [⟨"A", []⟩], [], 0⟩).2.2.2.2
      "t" "a" .running rfl rfl rfl rfl
  · exact (c8_assembly_validation.2 (constWorld infoFinishedRoot) "u"
      ⟨none, none, none, [], [], 0⟩).1 rfl
  · exact (c8_assembly_validation.2 (constWorld infoFinishedRoot) "u"
      ⟨some "t", none, none, [], [], 0⟩).2.1 "t" rfl rfl
  · exact (c8_assembly_validation.2 (constWorld infoFinishedRoot) "u"
      ⟨some "t", some "a", none, [], [], 0⟩).2.2.1 "t" "a" rfl rfl rfl
  · exact (c8_assembly_validation.2 (constWorld infoEmptyRoot) "u"
      ⟨some "t", some "a", some "/i", [], [], 0⟩).2.2.2.1
      "t" "a" "/i" (.componentMissing .status)
      [.fetchPage "https://ncode.syosetu.com/i", .traversal] rfl rfl rfl rfl
  · exact (c8_assembly_validation.2 (constWorld infoFinishedRoot) "u"
      ⟨some "t", some "a", some "/i", [], [], 0⟩).2.2.2.2.1
      "t" "a" "/i" .finished
      [.fetchPage "https://ncode.syosetu.com/i", .traversal] rfl rfl rfl rfl rfl rfl
  · exact (c8_assembly_validation.2 (constWorld infoFinishedRoot) "u"
      ⟨some "t", some "a", some "/i", [⟨"A", []⟩], [], 0⟩).2.2.2.2.2
      "t" "a" "/i" .finished
      [.fetchPage "https://ncode.syosetu.com/i", .traversal] rfl rfl rfl rfl rfl

end WNB
